import Mathlib

/-!
Verification of the deadline-tracker backend's collaboration engine and
notification scheduler.

The development shallowly embeds the relevant JavaScript source files:

* `src/models/Deadline.js`              — deadlines table, `createCopy`,
                                          `updateOverdueDeadlines`, and the
                                          `Friend` model (`getFriendshipStatus`);
* `src/models/DeadlineCollaborator.js`  — `deadline_collaborators` rows,
                                          `addCollaborator`, `canAccessDeadline`,
                                          `createCollaboratorCopies`,
                                          `addCollaboratorsWithCopies`,
                                          `syncCollaboratorsToDeadline`,
                                          `updateOriginalDeadlineCollaboratorsList`;
* the deadline controller (`addCollaboratorsToDeadline`); and
* the notification scheduler (`sendNotificationForTimeframe`,
  `sendDeadlineNotificationToAllCollaborators`, `checkOverdueDeadlines`,
  `shouldSendOverdueNotification`, `updateDeadlineStatus`).

The relational store is modelled as explicit lists of rows; SQL `UPDATE ...
WHERE id = $n` statements become maps over those lists; JavaScript `Date`
values become exact rational timestamps in milliseconds since the epoch, so
that the scheduler's `(now - then) / (1000*60*60)` hour arithmetic is modelled
exactly.
-/

namespace DeadlineTracker

/-- Deadline status, per the CHECK constraint of `deadlines.status` in
`Deadline.createTable`: `('pending', 'in_progress', 'completed', 'overdue')`. -/
inductive Status where
  | pending
  | in_progress
  | completed
  | overdue
deriving DecidableEq, Repr

/-- Collaborator role, per the CHECK constraint of
`deadline_collaborators.role`: `('owner', 'collaborator')`. -/
inductive Role where
  | owner
  | collaborator
deriving DecidableEq, Repr

/-- Role tag of an entry of the embedded `deadlines.collaborators` JSONB
snapshot: entries synced from real rows carry `owner`/`collaborator`, while
copy-provenance entries written by `updateOriginalDeadlineCollaboratorsList`
carry `copy_collaborator`. -/
inductive SnapRole where
  | owner
  | collaborator
  | copy_collaborator
deriving DecidableEq, Repr

/-- One entry of the embedded `collaborators` snapshot.  `has_copy` models the
JSON `has_copy` flag; synced entries lack the key, which reads as `false`
under the code's `has_copy === true` tests. -/
structure SnapEntry where
  user_id : Nat
  role : SnapRole
  can_edit : Bool
  can_delete : Bool
  has_copy : Bool
deriving DecidableEq, Repr

/-- A row of the `deadlines` table (the columns the claims depend on).
Timestamps are rational milliseconds since the epoch.  `notifications_sent`
is the JSONB map from notification kind to the last-sent timestamp. -/
structure DeadlineRow where
  id : Nat
  student_id : Nat
  title : String
  due_date : ℚ
  status : Status
  created_at : ℚ
  collaborators : List SnapEntry
  notifications_sent : List (String × ℚ)
deriving DecidableEq, Repr

/-- A row of the `deadline_collaborators` table. -/
structure CollabRow where
  deadline_id : Nat
  user_id : Nat
  role : Role
  can_edit : Bool
  can_delete : Bool
deriving DecidableEq, Repr

/-- Friendship status, per the CHECK constraint of `friends.status`. -/
inductive FriendStatus where
  | pending
  | accepted
  | declined
  | blocked
deriving DecidableEq, Repr

/-- A row of the `friends` table (the columns `getFriendshipStatus` reads). -/
structure FriendRow where
  user_id : Nat
  friend_id : Nat
  status : FriendStatus
deriving DecidableEq, Repr

/-- A row of the `users` table (only existence matters to the claims). -/
structure UserRow where
  id : Nat
deriving DecidableEq, Repr

/-- The relational store. -/
structure DB where
  deadlines : List DeadlineRow
  collabRows : List CollabRow
  friends : List FriendRow
  users : List UserRow
deriving DecidableEq, Repr

/-! ### Basic reads -/

/-- `SELECT ... FROM deadlines WHERE id = $1` (also `Deadline.findById`). -/
def findDeadline (db : DB) (did : Nat) : Option DeadlineRow :=
  db.deadlines.find? (fun d => d.id = did)

/-- `SELECT ... FROM deadline_collaborators WHERE deadline_id = $1 AND
user_id = $2` (also `DeadlineCollaborator.getCollaboratorRole`). -/
def collabFor (db : DB) (did uid : Nat) : Option CollabRow :=
  db.collabRows.find? (fun r => r.deadline_id = did ∧ r.user_id = uid)

/-- `SELECT ... FROM users WHERE id = $1` (`User.findById`). -/
def findUser (db : DB) (uid : Nat) : Option UserRow :=
  db.users.find? (fun u => u.id = uid)

/-- `Friend.getFriendshipStatus`: first row of `friends` matching
`(user_id=$1 AND friend_id=$2) OR (user_id=$2 AND friend_id=$1)`. -/
def getFriendshipStatus (db : DB) (userId friendId : Nat) : Option FriendRow :=
  db.friends.find? (fun f =>
    (f.user_id = userId ∧ f.friend_id = friendId) ∨
    (f.user_id = friendId ∧ f.friend_id = userId))

/-! ### Access resolution (`DeadlineCollaborator.canAccessDeadline`) -/

/-- The access record produced by `canAccessDeadline`: either a
`deadline_collaborators` row, or the synthesised owner row
`('owner', can_edit = true, can_delete = true)` of the UNION's second branch. -/
structure Access where
  role : Role
  can_edit : Bool
  can_delete : Bool
deriving DecidableEq, Repr

/-- Database-level error channel of the model.  The code of
`canAccessDeadline` itself never throws for a missing deadline; the
`notFound` constructor exists so that the spec's claimed behaviour is
statable. -/
inductive DbErr where
  | notFound
deriving DecidableEq, Repr

/-- `DeadlineCollaborator.canAccessDeadline(deadlineId, userId)`.

The SQL is a UNION of (1) the collaborator row for `(deadlineId, userId)`
joined against `deadlines`, and (2) a synthesised owner row when
`deadlines.student_id = userId`.  The code takes `result.rows[0]`; we model
the union with the first SELECT's row first.  When the union is empty the
code additionally looks for a copy-provenance entry
(`role === 'copy_collaborator' || has_copy === true`) in the embedded
snapshot and returns `null` whether or not one is found. -/
def canAccessDeadline (db : DB) (deadlineId userId : Nat) :
    Except DbErr (Option Access) :=
  let collabAccess : Option Access :=
    match findDeadline db deadlineId, collabFor db deadlineId userId with
    | some _, some r => some ⟨r.role, r.can_edit, r.can_delete⟩
    | _, _ => none
  let ownerAccess : Option Access :=
    match findDeadline db deadlineId with
    | some d => if d.student_id = userId then some ⟨Role.owner, true, true⟩ else none
    | none => none
  match collabAccess.orElse (fun _ => ownerAccess) with
  | some a => .ok (some a)
  | none =>
    match findDeadline db deadlineId with
    | some d =>
      match d.collaborators.find? (fun c =>
          c.user_id = userId ∧ (c.role = SnapRole.copy_collaborator ∨ c.has_copy)) with
      | some _ => .ok none
      | none => .ok none
    | none => .ok none

end DeadlineTracker

namespace DeadlineTracker

/-! ### Title heuristics (`(Copy)` / `(My Copy)` markers)

`Deadline.createCopy` and `createCollaboratorCopies` test titles with
`title.includes('(Copy)') || title.includes('(My Copy)')` and strip markers
with `title.replace(/\s*\(My Copy\)|\s*\(Copy\)/g, '').trim()`. -/

/-- JS `\s` / `String.prototype.trim` whitespace class. -/
def isSpaceChar (c : Char) : Bool := c.isWhitespace

/-- The characters of the literal `"(My Copy)"`. -/
def copyMarkerMy : List Char := "(My Copy)".toList

/-- The characters of the literal `"(Copy)"`. -/
def copyMarkerPlain : List Char := "(Copy)".toList

/-- One attempt of the regex `/\s*\(My Copy\)|\s*\(Copy\)/` at the current
position: greedily consume whitespace, then require one of the two literal
markers; on success return the remainder after the match. -/
def matchCopyMarker (l : List Char) : Option (List Char) :=
  let rest := l.dropWhile isSpaceChar
  if copyMarkerMy.isPrefixOf rest then some (rest.drop copyMarkerMy.length)
  else if copyMarkerPlain.isPrefixOf rest then some (rest.drop copyMarkerPlain.length)
  else none

/-- Fuel-bounded scanner implementing
`title.replace(/\s*\(My Copy\)|\s*\(Copy\)/g, '')`: at each position remove
a match and continue after it, or keep the character and advance.  Every step
shortens the list, so `l.length` fuel always suffices; the fuel only makes
the recursion structural. -/
def stripCopyAux : Nat → List Char → List Char
  | 0, l => l
  | _ + 1, [] => []
  | fuel + 1, c :: cs =>
    match matchCopyMarker (c :: cs) with
    | some rest => stripCopyAux fuel rest
    | none => c :: stripCopyAux fuel cs

/-- `title.replace(/\s*\(My Copy\)|\s*\(Copy\)/g, '')`. -/
def stripCopyMarkers (l : List Char) : List Char :=
  stripCopyAux l.length l

/-- `String.prototype.trim`. -/
def trimChars (l : List Char) : List Char :=
  ((l.dropWhile isSpaceChar).reverse.dropWhile isSpaceChar).reverse

/-- The base title: markers removed, then trimmed
(`title.replace(/\s*\(My Copy\)|\s*\(Copy\)/g, '').trim()`). -/
def stripAndTrim (s : String) : String :=
  ⟨trimChars (stripCopyMarkers s.toList)⟩

/-- `haystack.includes(needle)` on character lists. -/
def hasSub (pat : List Char) : List Char → Bool
  | [] => pat.isPrefixOf []
  | c :: cs => pat.isPrefixOf (c :: cs) || hasSub pat cs

/-- `title.includes('(Copy)') || title.includes('(My Copy)')`. -/
def hasCopyMarker (t : String) : Bool :=
  hasSub copyMarkerPlain t.toList || hasSub copyMarkerMy t.toList

/-- The copy's title, per `Deadline.createCopy`: if the original title
already carries a copy marker, append the suffix to the stripped base title,
otherwise to the original title (no double-suffixing). -/
def copyTitle (origTitle suffix : String) : String :=
  if hasCopyMarker origTitle then stripAndTrim origTitle ++ suffix
  else origTitle ++ suffix

/-! ### Writes shared by the collaboration engine -/

/-- `UPDATE deadlines SET ... WHERE id = $did`, with `f` the per-row change. -/
def updateDeadlineRow (db : DB) (did : Nat) (f : DeadlineRow → DeadlineRow) : DB :=
  { db with deadlines := db.deadlines.map (fun d => if d.id = did then f d else d) }

/-- `Role` rendered as the snapshot's role tag. -/
def roleToSnap : Role → SnapRole
  | .owner => .owner
  | .collaborator => .collaborator

/-- The rows `syncCollaboratorsToDeadline` writes into the snapshot: all
collaborator rows of the deadline joined against `users` (rows whose user is
missing are dropped by the JOIN); synced entries carry no `has_copy` key. -/
def syncedSnapshot (db : DB) (did : Nat) : List SnapEntry :=
  (db.collabRows.filter (fun r => r.deadline_id = did)).filterMap (fun r =>
    match findUser db r.user_id with
    | some _ => some ⟨r.user_id, roleToSnap r.role, r.can_edit, r.can_delete, false⟩
    | none => none)

/-- `DeadlineCollaborator.syncCollaboratorsToDeadline`. -/
def syncCollaboratorsToDeadline (db : DB) (did : Nat) : DB :=
  updateDeadlineRow db did (fun d => { d with collaborators := syncedSnapshot db did })

/-- `DeadlineCollaborator.addCollaborator`: `INSERT ... ON CONFLICT
(deadline_id, user_id) DO UPDATE SET role, can_edit, can_delete`, then a
snapshot sync of the same deadline. -/
def addCollaborator (db : DB) (did uid : Nat) (role : Role)
    (can_edit can_delete : Bool) : DB :=
  let rows :=
    if db.collabRows.any (fun r => r.deadline_id = did ∧ r.user_id = uid) then
      db.collabRows.map (fun r =>
        if r.deadline_id = did ∧ r.user_id = uid then
          { r with role := role, can_edit := can_edit, can_delete := can_delete }
        else r)
    else
      db.collabRows ++ [⟨did, uid, role, can_edit, can_delete⟩]
  syncCollaboratorsToDeadline { db with collabRows := rows } did

/-- Fresh SERIAL id for an inserted deadline row. -/
def freshId (db : DB) : Nat := (db.deadlines.map (·.id)).foldr max 0 + 1

/-- Optional overrides accepted by `Deadline.createCopy`. -/
structure CopyData where
  title : Option String := none
  titleSuffix : Option String := none
  status : Option Status := none

/-- `Deadline.createCopy(originalDeadlineId, newOwnerId, copyData)`: clone the
original's core fields into a new row owned by `newOwnerId`, with the
copy-title logic and the status defaulting to `pending`; throws when the
original deadline does not exist. -/
def createCopy (db : DB) (originalDeadlineId newOwnerId : Nat) (copyData : CopyData)
    (now : ℚ) : Except String (DB × DeadlineRow) :=
  match findDeadline db originalDeadlineId with
  | none => .error "Original deadline not found"
  | some original =>
    let titleSuffix := copyData.titleSuffix.getD " (Copy)"
    let newTitle :=
      match copyData.title with
      | some t => t
      | none => copyTitle original.title titleSuffix
    let newStatus := copyData.status.getD .pending
    let row : DeadlineRow :=
      { id := freshId db, student_id := newOwnerId, title := newTitle,
        due_date := original.due_date, status := newStatus, created_at := now,
        collaborators := [], notifications_sent := [] }
    .ok ({ db with deadlines := db.deadlines ++ [row] }, row)

/-! ### Root resolution and collaborator copies
(`DeadlineCollaborator.createCollaboratorCopies`) -/

/-- `ORDER BY created_at ASC LIMIT 1`: leftmost row of minimal `created_at`. -/
def firstByCreatedAt (l : List DeadlineRow) : Option DeadlineRow :=
  l.foldl (fun acc d =>
    match acc with
    | none => some d
    | some a => if d.created_at < a.created_at then some d else acc) none

/-- The root-deadline heuristic of `createCollaboratorCopies`: when the
current title carries a copy marker, try the three progressively looser
title-matching strategies; the first hit gives `(rootDeadlineId, rootOwnerId)`,
otherwise the current deadline is its own root. -/
def resolveRoot (db : DB) (cur : DeadlineRow) (originalDeadlineId : Nat) : Nat × Nat :=
  if hasCopyMarker cur.title then
    let baseTitle := stripAndTrim cur.title
    let s1 := firstByCreatedAt (db.deadlines.filter (fun d =>
      d.title = baseTitle ∧ d.student_id ≠ cur.student_id ∧ d.created_at < cur.created_at))
    let s2 := firstByCreatedAt (db.deadlines.filter (fun d =>
      d.title = baseTitle ∧ d.student_id ≠ cur.student_id))
    let s3 := firstByCreatedAt (db.deadlines.filter (fun d =>
      stripAndTrim d.title = baseTitle ∧ d.student_id ≠ cur.student_id ∧
        ¬ hasCopyMarker d.title))
    match s1.orElse (fun _ => s2.orElse (fun _ => s3)) with
    | some root => (root.id, root.student_id)
    | none => (originalDeadlineId, cur.student_id)
  else (originalDeadlineId, cur.student_id)

/-- One element of the array `createCollaboratorCopies` returns.  `failed`
models the catch-path entry (`error` set, no copy created). -/
structure CopyEntry where
  user_id : Nat
  deadline_id : Option Nat
  is_copy : Bool
  denied : Bool := false
  is_original_owner : Bool := false
  failed : Bool := false
deriving DecidableEq, Repr

/-- The per-candidate loop of `createCollaboratorCopies` (the
`createIndividualCopies` branch): deny the root owner on a copy, add the root
owner as a plain collaborator on the root itself, and otherwise create a copy
plus an `owner` collaborator row on the copy. -/
def copyLoop (origId rootId rootOwner : Nat) (suffix : String) (now : ℚ) :
    DB → List Nat → DB × List CopyEntry
  | db, [] => (db, [])
  | db, uid :: rest =>
    if uid = rootOwner then
      if rootId ≠ origId then
        let r := copyLoop origId rootId rootOwner suffix now db rest
        (r.1, { user_id := uid, deadline_id := none, is_copy := false,
                denied := true, is_original_owner := true } :: r.2)
      else
        let db1 := addCollaborator db origId uid .collaborator true false
        let r := copyLoop origId rootId rootOwner suffix now db1 rest
        (r.1, { user_id := uid, deadline_id := some origId, is_copy := false,
                is_original_owner := true } :: r.2)
    else
      match createCopy db origId uid { titleSuffix := some suffix, status := some .pending } now with
      | .ok (db1, copyRow) =>
        let db2 := addCollaborator db1 copyRow.id uid .owner true true
        let r := copyLoop origId rootId rootOwner suffix now db2 rest
        (r.1, { user_id := uid, deadline_id := some copyRow.id, is_copy := true } :: r.2)
      | .error _ =>
        let r := copyLoop origId rootId rootOwner suffix now db rest
        (r.1, { user_id := uid, deadline_id := none, is_copy := false,
                failed := true } :: r.2)

/-- The `!createIndividualCopies` branch of `createCollaboratorCopies` (and
the `createCopies = false` branch of `addCollaboratorsWithCopies`): plain
collaborator rows on the original deadline. -/
def directAddLoop : DB → Nat → List Nat → DB × List CopyEntry
  | db, _, [] => (db, [])
  | db, did, uid :: rest =>
    let db1 := addCollaborator db did uid .collaborator true false
    let r := directAddLoop db1 did rest
    (r.1, { user_id := uid, deadline_id := some did, is_copy := false } :: r.2)

/-- `DeadlineCollaborator.createCollaboratorCopies`. -/
def createCollaboratorCopies (db : DB) (originalDeadlineId : Nat) (userIds : List Nat)
    (createIndividualCopies : Bool) (titleSuffix : String) (now : ℚ) :
    Except String (DB × List CopyEntry) :=
  if createIndividualCopies then
    match findDeadline db originalDeadlineId with
    | none => .error "Source deadline not found"
    | some cur =>
      let root := resolveRoot db cur originalDeadlineId
      .ok (copyLoop originalDeadlineId root.1 root.2 titleSuffix now db userIds)
  else
    .ok (directAddLoop db originalDeadlineId userIds)

/-- The copy-provenance tracking entry appended by
`updateOriginalDeadlineCollaboratorsList`. -/
def copyTrackingEntry (uid : Nat) : SnapEntry :=
  { user_id := uid, role := .copy_collaborator, can_edit := false,
    can_delete := false, has_copy := true }

/-- The entry-merging loop of `updateOriginalDeadlineCollaboratorsList`: each
selected user missing from the snapshot is appended as a tracking-only entry. -/
def addTrackingEntries (current : List SnapEntry) (us : List UserRow) : List SnapEntry :=
  us.foldl (fun cur u =>
    if cur.any (fun c => c.user_id = u.id) then cur else cur ++ [copyTrackingEntry u.id])
    current

/-- `DeadlineCollaborator.updateOriginalDeadlineCollaboratorsList`: record
copy-provenance entries on the original deadline's snapshot, without touching
`deadline_collaborators`. -/
def updateOriginalDeadlineCollaboratorsList (db : DB) (did : Nat)
    (userIds : List Nat) : Except String DB :=
  match findDeadline db did with
  | none => .error "Deadline not found"
  | some d =>
    let selectedUsers := db.users.filter (fun u => decide (u.id ∈ userIds))
    let newList := addTrackingEntries d.collaborators selectedUsers
    .ok (updateDeadlineRow db did (fun r => { r with collaborators := newList }))

/-- `DeadlineCollaborator.addCollaboratorsWithCopies` (in-app notifications
about created copies are external best-effort side effects, not modelled).
The store is returned alongside the outcome because a throw after partial
writes leaves those writes persisted. -/
def addCollaboratorsWithCopies (db : DB) (deadlineId : Nat) (userIds : List Nat)
    (createCopies createIndividualCopies : Bool) (titleSuffix : String) (now : ℚ) :
    DB × Except String (List CopyEntry) :=
  if createCopies then
    match createCollaboratorCopies db deadlineId userIds createIndividualCopies
        titleSuffix now with
    | .error e => (db, .error e)
    | .ok (db1, copies) =>
      match updateOriginalDeadlineCollaboratorsList db1 deadlineId userIds with
      | .error e => (db1, .error e)
      | .ok db2 => (db2, .ok copies)
  else
    ((directAddLoop db deadlineId userIds).1, .ok (directAddLoop db deadlineId userIds).2)

/-! ### The collaborator-add controller (`addCollaboratorsToDeadline`) -/

/-- One element of the controller's `skipped_collaborators` array. -/
structure Skip where
  user_id : Nat
  reason : String
deriving DecidableEq, Repr

/-- The controller's per-candidate validation loop (ids are already numbers
in the model, so the `isNaN` branch cannot fire).  Skips accumulate per
candidate; a missing user or a non-accepted friendship aborts the whole
request with a 400 error. -/
def validateCandidates (db : DB) (did : Nat) (dl : DeadlineRow) (requesterId : Nat) :
    List Nat → Except String (List Nat × List Skip)
  | [] => .ok ([], [])
  | c :: rest =>
    if c = requesterId then
      (validateCandidates db did dl requesterId rest).map
        (fun r => (r.1, ⟨c, "Cannot add yourself as collaborator"⟩ :: r.2))
    else if c = dl.student_id then
      (validateCandidates db did dl requesterId rest).map (fun r =>
        (r.1,
          ⟨c, "Cannot add deadline owner as collaborator - they already own this deadline"⟩
            :: r.2))
    else
      match collabFor db did c with
      | some _ =>
        (validateCandidates db did dl requesterId rest).map
          (fun r => (r.1, ⟨c, "User is already a collaborator"⟩ :: r.2))
      | none =>
        match findUser db c with
        | none => .error ("User not found: " ++ toString c)
        | some _ =>
          match getFriendshipStatus db requesterId c with
          | some f =>
            if f.status = .accepted then
              (validateCandidates db did dl requesterId rest).map
                (fun r => (c :: r.1, r.2))
            else .error ("User " ++ toString c ++ " is not in your friends list")
          | none => .error ("User " ++ toString c ++ " is not in your friends list")

/-- The controller's response, by HTTP outcome. -/
inductive AddResult where
  | emptyRequest
  | notFound
  | permissionDenied
  | candidateError (msg : String)
  | noValidCandidates (skipped : List Skip)
  | serverError (msg : String)
  | noneAdded (denied : List CopyEntry) (skipped : List Skip)
  | success (added : List CopyEntry) (denied : List CopyEntry) (skipped : List Skip)
deriving DecidableEq, Repr

/-- The controller's permission check: original owner (`student_id`), or a
collaborator row with role `owner` or `can_edit`. -/
def hasPermission (db : DB) (did requesterId : Nat) (deadline : DeadlineRow) : Bool :=
  decide (deadline.student_id = requesterId) ||
    (match collabFor db did requesterId with
     | some r => decide (r.role = Role.owner) || r.can_edit
     | none => false)

/-- The deadline controller's `addCollaboratorsToDeadline`, from request
validation through `addCollaboratorsWithCopies`, paired with the resulting
store. -/
def addCollaboratorsToDeadline (db : DB) (did requesterId : Nat)
    (candidates : List Nat) (createCopies createIndividualCopies : Bool)
    (titleSuffix : String) (now : ℚ) : DB × AddResult :=
  if candidates.isEmpty then (db, .emptyRequest)
  else
    match findDeadline db did with
    | none => (db, .notFound)
    | some deadline =>
      if hasPermission db did requesterId deadline then
        match validateCandidates db did deadline requesterId candidates with
        | .error msg => (db, .candidateError msg)
        | .ok (valid, skipped) =>
          if valid.isEmpty then (db, .noValidCandidates skipped)
          else
            match addCollaboratorsWithCopies db did valid createCopies
                createIndividualCopies titleSuffix now with
            | (db', .error e) => (db', .serverError e)
            | (db', .ok entries) =>
              if (entries.filter (fun e => !e.denied && !e.failed)).isEmpty then
                (db', .noneAdded (entries.filter (fun e => e.denied)) skipped)
              else
                (db', .success (entries.filter (fun e => !e.denied && !e.failed))
                  (entries.filter (fun e => e.denied)) skipped)
      else (db, .permissionDenied)

/-! ### Notification scheduler (`notificationService`) -/

/-- The configured reminder lead times of `checkAndSendNotifications`: hours
before the due date, paired with the notification kind. -/
def notificationTimeframes : List (ℚ × String) :=
  [(48, "2_days"), (24, "1_day"), (12, "12_hours"), (1, "1_hour")]

/-- `new Date(Date.now() + (hours - 0.5) * 60 * 60 * 1000)`. -/
def reminderWindowStart (now hours : ℚ) : ℚ := now + (hours - 1/2) * (60 * 60 * 1000)

/-- `new Date(Date.now() + (hours + 0.5) * 60 * 60 * 1000)`. -/
def reminderWindowEnd (now hours : ℚ) : ℚ := now + (hours + 1/2) * (60 * 60 * 1000)

/-- The jsonb key-exists test `notifications_sent ? $kind`. -/
def hasSentKey (m : List (String × ℚ)) (k : String) : Bool :=
  m.any (fun p => p.1 = k)

/-- Read a kind's last-sent timestamp from the notifications-sent map. -/
def lookupSent (m : List (String × ℚ)) (k : String) : Option ℚ :=
  (m.find? (fun p => p.1 = k)).map (·.2)

/-- `notifications_sent || jsonb_build_object($kind, $value)`: set or
overwrite the key. -/
def setSentKey (m : List (String × ℚ)) (k : String) (v : ℚ) : List (String × ℚ) :=
  m.filter (fun p => p.1 ≠ k) ++ [(k, v)]

/-- The selection predicate of `sendNotificationForTimeframe`: due date
`BETWEEN` the ±30-minute window around `now + hours`, status
`NOT IN ('completed', 'overdue')`, and
`NOT (notifications_sent ? $notificationType)`. -/
def eligibleForTimeframe (now hours : ℚ) (notificationType : String)
    (d : DeadlineRow) : Bool :=
  decide (reminderWindowStart now hours ≤ d.due_date) &&
  decide (d.due_date ≤ reminderWindowEnd now hours) &&
  decide (d.status ≠ Status.completed) && decide (d.status ≠ Status.overdue) &&
  ! hasSentKey d.notifications_sent notificationType

/-- The deadlines `sendNotificationForTimeframe` fetches for one lead time. -/
def selectForTimeframe (db : DB) (now hours : ℚ) (nt : String) : List DeadlineRow :=
  db.deadlines.filter (eligibleForTimeframe now hours nt)

/-- `markNotificationSent(deadlineId, notificationType)`. -/
def markNotificationSent (db : DB) (did : Nat) (nt : String) (now : ℚ) : DB :=
  updateDeadlineRow db did (fun d =>
    { d with notifications_sent := setSentKey d.notifications_sent nt now })

/-- Per-recipient inputs of the recipient loop in
`sendDeadlineNotificationToAllCollaborators`: the user's per-channel
preference flags (`isReminderEnabled` / `isInAppReminderEnabled`) and the
outcome each channel's delivery would report if attempted. -/
structure RecipientOutcome where
  user_id : Nat
  emailEnabled : Bool
  inAppEnabled : Bool
  emailSuccess : Bool
  inAppSuccess : Bool
deriving DecidableEq, Repr

/-- Whether the loop counts this recipient as a success: a channel was
enabled and its delivery succeeded (`emailSuccess || inAppSuccess`). -/
def recipientSucceeded (r : RecipientOutcome) : Bool :=
  (r.emailEnabled && r.emailSuccess) || (r.inAppEnabled && r.inAppSuccess)

/-- The `(successCount, failureCount)` tally of the recipient loop; a
recipient with both channels disabled is skipped without counting. -/
def tallyOutcomes : List RecipientOutcome → Nat × Nat
  | [] => (0, 0)
  | r :: rest =>
    let t := tallyOutcomes rest
    if !r.emailEnabled && !r.inAppEnabled then t
    else if recipientSucceeded r then (t.1 + 1, t.2) else (t.1, t.2 + 1)

/-- `sendDeadlineNotificationToAllCollaborators`, delivery side effects
aside: the deadline's notifications-sent marker for the kind is written iff
`successCount > 0`. -/
def sendDeadlineNotificationToAllCollaborators (db : DB) (d : DeadlineRow)
    (nt : String) (outcomes : List RecipientOutcome) (now : ℚ) : DB :=
  if (tallyOutcomes outcomes).1 > 0 then markNotificationSent db d.id nt now else db

/-- `(now - then) / (1000 * 60 * 60)`: elapsed hours, exact. -/
def hoursBetween (later earlier : ℚ) : ℚ := (later - earlier) / (1000 * 60 * 60)

/-- `shouldSendOverdueNotification` with its database read made explicit:
the argument is the outcome of `SELECT notifications_sent, due_date, status
FROM deadlines WHERE id = $1` — a thrown error, no row, or a row.  The catch
block and the no-row branch both return `false` (err on the side of not
sending). -/
def shouldSendOverdueNotificationRead
    (readResult : Except String (Option DeadlineRow)) (now : ℚ) : Bool :=
  match readResult with
  | .error _ => false
  | .ok none => false
  | .ok (some d) =>
    let hoursOverdue := hoursBetween now d.due_date
    match lookupSent d.notifications_sent "overdue" with
    | none => true
    | some lastSent =>
      decide (24 ≤ hoursBetween now lastSent) && decide (hoursOverdue ≤ 168)

/-- `shouldSendOverdueNotification(deadlineId)` against a store whose read
succeeds. -/
def shouldSendOverdueNotification (db : DB) (did : Nat) (now : ℚ) : Bool :=
  shouldSendOverdueNotificationRead (.ok (findDeadline db did)) now

/-- `updateDeadlineStatus(deadlineId, status)` of the scheduler. -/
def updateDeadlineStatus (db : DB) (did : Nat) (st : Status) : DB :=
  updateDeadlineRow db did (fun d => { d with status := st })

/-- The status-maintenance scan of `checkOverdueDeadlines`: the query selects
`due_date < NOW() AND status NOT IN ('completed', 'deleted', 'overdue')`
(`'deleted'` lies outside the status CHECK constraint, so it needs no extra
filter in the model) and every selected deadline's status is set to
`overdue`. -/
def overdueStatusScan (db : DB) (now : ℚ) : DB :=
  let targets := db.deadlines.filter (fun d =>
    decide (d.due_date < now) && decide (d.status ≠ Status.completed) &&
      decide (d.status ≠ Status.overdue))
  targets.foldl (fun s d => updateDeadlineStatus s d.id .overdue) db

/-- `Deadline.updateOverdueDeadlines` (daily maintenance): `UPDATE deadlines
SET status = 'overdue' WHERE due_date < CURRENT_TIMESTAMP AND status NOT IN
('completed', 'overdue')`. -/
def updateOverdueDeadlines (db : DB) (now : ℚ) : DB :=
  { db with deadlines := db.deadlines.map (fun d =>
      if d.due_date < now ∧ d.status ≠ Status.completed ∧ d.status ≠ Status.overdue
      then { d with status := Status.overdue } else d) }

/-! ### Concrete stores for witnesses and counterexamples -/

/-- Concrete store for the C1 witness: deadline 2 owned by user 7, a real
collaborator row for user 8, and a copy-provenance snapshot entry for user 9. -/
def dbC1 : DB :=
  { deadlines := [{ id := 2, student_id := 7, title := "Essay", due_date := 1000,
                    status := .pending, created_at := 0,
                    collaborators := [{ user_id := 9, role := .copy_collaborator,
                                        can_edit := false, can_delete := false,
                                        has_copy := true }],
                    notifications_sent := [] }]
    collabRows := [{ deadline_id := 2, user_id := 8, role := .collaborator,
                     can_edit := true, can_delete := false }]
    friends := []
    users := [⟨7⟩, ⟨8⟩, ⟨9⟩] }

/-- Concrete store for C9: no deadline with id 1 exists; deadline 2 exists and
user 5 has no access to it. -/
def dbC9 : DB :=
  { deadlines := [{ id := 2, student_id := 7, title := "Lab", due_date := 1000,
                    status := .pending, created_at := 0, collaborators := [],
                    notifications_sent := [] }]
    collabRows := []
    friends := []
    users := [⟨5⟩, ⟨7⟩] }

/-- C2 witness root deadline: "Thesis", owned by user 1, created first. -/
def dC2root : DeadlineRow :=
  { id := 100, student_id := 1, title := "Thesis", due_date := 1000,
    status := .pending, created_at := 10, collaborators := [],
    notifications_sent := [] }

/-- C2 witness copy deadline: "Thesis (My Copy)", owned by user 2, created
after the root. -/
def dC2copy : DeadlineRow :=
  { id := 101, student_id := 2, title := "Thesis (My Copy)", due_date := 1000,
    status := .pending, created_at := 20, collaborators := [],
    notifications_sent := [] }

/-- Concrete store for the C2 witness. -/
def dbC2 : DB :=
  { deadlines := [dC2root, dC2copy], collabRows := [], friends := [],
    users := [⟨1⟩, ⟨2⟩] }

/-- C8 witness deadline: already carries a copy marker in its title, owned by
user 1, with an empty snapshot. -/
def dC8 : DeadlineRow :=
  { id := 1, student_id := 1, title := "HW3 (My Copy)", due_date := 1000,
    status := .in_progress, created_at := 10, collaborators := [],
    notifications_sent := [] }

/-- Concrete store for the C8 witness. -/
def dbC8 : DB :=
  { deadlines := [dC8], collabRows := [], friends := [], users := [⟨1⟩, ⟨2⟩] }

/-- C3 store: deadline 1 owned by requester 10; user 20 is not a friend of
10, user 30 is an accepted friend. -/
def dbC3 : DB :=
  { deadlines := [{ id := 1, student_id := 10, title := "Project", due_date := 1000,
                    status := .pending, created_at := 0, collaborators := [],
                    notifications_sent := [] }],
    collabRows := [], friends := [⟨10, 30, .accepted⟩],
    users := [⟨10⟩, ⟨20⟩, ⟨30⟩] }

/-- C4 store: deadline 1 owned by user 99; requester 10 holds an editing
collaborator row; candidates 20 (accepted friend), 10 (the requester) and
99 (the owner). -/
def dbC4 : DB :=
  { deadlines := [{ id := 1, student_id := 99, title := "Report", due_date := 1000,
                    status := .pending, created_at := 0, collaborators := [],
                    notifications_sent := [] }],
    collabRows := [{ deadline_id := 1, user_id := 10, role := .collaborator,
                     can_edit := true, can_delete := false }],
    friends := [⟨10, 20, .accepted⟩],
    users := [⟨10⟩, ⟨20⟩, ⟨99⟩] }

/-- C5 witness rows: a deadline inside the 1-hour window with no marker, and
one inside the window whose `1_hour` marker is already set. -/
def dC5a : DeadlineRow :=
  { id := 10, student_id := 7, title := "HW1", due_date := 3600000,
    status := .pending, created_at := 0, collaborators := [],
    notifications_sent := [] }

/-- Second C5 witness row (marker set). -/
def dC5b : DeadlineRow :=
  { id := 11, student_id := 7, title := "HW2", due_date := 3600000,
    status := .pending, created_at := 0, collaborators := [],
    notifications_sent := [("1_hour", -100)] }

/-- Concrete store for the C5 witness. -/
def dbC5 : DB := { deadlines := [dC5a, dC5b], collabRows := [], friends := [], users := [] }

/-- The C6 witness clock: 10000 hours since the epoch, in milliseconds. -/
def nowC6 : ℚ := 36000000000

/-- C6 witness rows: never notified; notified 23 hours ago; notified 25 hours
ago and 10 hours overdue; notified 25 hours ago but 200 hours overdue. -/
def dC6a : DeadlineRow :=
  { id := 1, student_id := 7, title := "A", due_date := 35964000000,
    status := .overdue, created_at := 0, collaborators := [],
    notifications_sent := [] }

/-- C6 witness row: last overdue notification 23 hours ago. -/
def dC6b : DeadlineRow :=
  { id := 2, student_id := 7, title := "B", due_date := 35964000000,
    status := .overdue, created_at := 0, collaborators := [],
    notifications_sent := [("overdue", 35917200000)] }

/-- C6 witness row: notified 25 hours ago, 10 hours overdue. -/
def dC6c : DeadlineRow :=
  { id := 3, student_id := 7, title := "C", due_date := 35964000000,
    status := .overdue, created_at := 0, collaborators := [],
    notifications_sent := [("overdue", 35910000000)] }

/-- C6 witness row: notified 25 hours ago, 200 hours overdue. -/
def dC6d : DeadlineRow :=
  { id := 4, student_id := 7, title := "D", due_date := 35280000000,
    status := .overdue, created_at := 0, collaborators := [],
    notifications_sent := [("overdue", 35910000000)] }

/-- Concrete store for the C6 witness. -/
def dbC6 : DB :=
  { deadlines := [dC6a, dC6b, dC6c, dC6d], collabRows := [], friends := [], users := [] }

/-- C7 witness rows: past-due pending, completed, and already-overdue. -/
def dC7a : DeadlineRow :=
  { id := 1, student_id := 7, title := "P", due_date := 500, status := .pending,
    created_at := 0, collaborators := [], notifications_sent := [] }

/-- C7 witness row with status completed. -/
def dC7b : DeadlineRow :=
  { id := 2, student_id := 7, title := "Q", due_date := 500, status := .completed,
    created_at := 0, collaborators := [], notifications_sent := [] }

/-- C7 witness row with status overdue. -/
def dC7c : DeadlineRow :=
  { id := 3, student_id := 7, title := "R", due_date := 500, status := .overdue,
    created_at := 0, collaborators := [], notifications_sent := [] }

/-- Concrete store for the C7 witness. -/
def dbC7 : DB :=
  { deadlines := [dC7a, dC7b, dC7c], collabRows := [], friends := [], users := [] }

/-- Concrete store for the C10 witness: no deadline with id 1. -/
def dbC10 : DB := { deadlines := [], collabRows := [], friends := [], users := [] }

/-!
## Theorems

Helper lemmas first, then one theorem per claim (with its witness or
counterexample).
-/

/-- Helper: a successful `find?` yields a member satisfying the predicate. -/
theorem find?_spec {α : Type} {p : α → Bool} {l : List α} {a : α}
    (h : l.find? p = some a) : a ∈ l ∧ p a = true :=
  ⟨List.mem_of_find?_eq_some h, List.find?_some h⟩

/-- Helper: `find?` over a list with no satisfying member is `none`. -/
theorem find?_of_any_false {α : Type} {p : α → Bool} {l : List α}
    (h : l.any p = false) : l.find? p = none := by
  rw [List.find?_eq_none]
  intro x hx
  have := List.any_eq_false.mp h x hx
  simp [this]

/-- Helper: mapping a function that does not change the predicate's verdict
commutes with `find?`. -/
theorem find?_map_pred {α : Type} (g : α → α) (q : α → Bool)
    (hq : ∀ a, q (g a) = q a) :
    ∀ l : List α, (l.map g).find? q = (l.find? q).map g
  | [] => rfl
  | a :: l => by
    have hga := hq a
    cases hqa : q a with
    | true =>
      rw [hqa] at hga
      rw [List.map_cons, List.find?_cons_of_pos _ hga, List.find?_cons_of_pos _ hqa,
        Option.map_some']
    | false =>
      rw [hqa] at hga
      rw [List.map_cons, List.find?_cons_of_neg _ (by simp [hga]),
        List.find?_cons_of_neg _ (by simp [hqa])]
      exact find?_map_pred g q hq l

/-- A found deadline is a member and carries the looked-up id. -/
theorem findDeadline_id {db : DB} {did : Nat} {d : DeadlineRow}
    (h : findDeadline db did = some d) : d ∈ db.deadlines ∧ d.id = did := by
  have := find?_spec h
  exact ⟨this.1, of_decide_eq_true this.2⟩

/-- `updateDeadlineRow` leaves the collaborator table untouched. -/
theorem collabFor_updateDeadlineRow (db : DB) (did : Nat)
    (f : DeadlineRow → DeadlineRow) (a b : Nat) :
    collabFor (updateDeadlineRow db did f) a b = collabFor db a b := rfl

/-- Looking up any id through an id-preserving `UPDATE ... WHERE id = did`. -/
theorem findDeadline_updateDeadlineRow (db : DB) (did : Nat)
    (f : DeadlineRow → DeadlineRow) (hf : ∀ d, (f d).id = d.id) (i : Nat) :
    findDeadline (updateDeadlineRow db did f) i =
      (findDeadline db i).map (fun d => if d.id = did then f d else d) := by
  unfold findDeadline updateDeadlineRow
  exact find?_map_pred _ _
    (fun d => by
      by_cases hd : d.id = did
      · simp [hd, hf]
      · simp [hd]) db.deadlines

/-- The updated row, read back at the updated id. -/
theorem findDeadline_updateDeadlineRow_self {db : DB} {did : Nat}
    {f : DeadlineRow → DeadlineRow} (hf : ∀ d, (f d).id = d.id) {d : DeadlineRow}
    (h : findDeadline db did = some d) :
    findDeadline (updateDeadlineRow db did f) did = some (f d) := by
  rw [findDeadline_updateDeadlineRow db did f hf, h, Option.map_some',
    if_pos (findDeadline_id h).2]

/-- Rows at other ids, read back unchanged. -/
theorem findDeadline_updateDeadlineRow_other {db : DB} {did : Nat}
    {f : DeadlineRow → DeadlineRow} (hf : ∀ d, (f d).id = d.id) {i : Nat}
    {d : DeadlineRow} (h : findDeadline db i = some d) (hne : i ≠ did) :
    findDeadline (updateDeadlineRow db did f) i = some d := by
  rw [findDeadline_updateDeadlineRow db did f hf, h, Option.map_some',
    if_neg (by rw [(findDeadline_id h).2]; exact hne)]

/-- A missing id stays missing through an id-preserving update. -/
theorem findDeadline_updateDeadlineRow_none {db : DB} {did : Nat}
    {f : DeadlineRow → DeadlineRow} (hf : ∀ d, (f d).id = d.id) {i : Nat}
    (h : findDeadline db i = none) :
    findDeadline (updateDeadlineRow db did f) i = none := by
  rw [findDeadline_updateDeadlineRow db did f hf, h, Option.map_none']

/-- An id-targeted update that preserves a projection preserves that
projection of every lookup. -/
theorem findDeadline_updateDeadlineRow_map {β : Type} (db : DB) (did : Nat)
    (f : DeadlineRow → DeadlineRow) (hf : ∀ d, (f d).id = d.id)
    (proj : DeadlineRow → β) (hproj : ∀ d, proj (f d) = proj d) (i : Nat) :
    (findDeadline (updateDeadlineRow db did f) i).map proj =
      (findDeadline db i).map proj := by
  rw [findDeadline_updateDeadlineRow db did f hf i, Option.map_map]
  cases findDeadline db i with
  | none => rfl
  | some d =>
    simp only [Option.map_some', Function.comp]
    by_cases hd : d.id = did <;> simp [hd, hproj]

/-- `addCollaborator` only rewrites the collaborator table and the target
deadline's snapshot; its collaborator table is the upsert of the input's. -/
theorem addCollaborator_collabRows (db : DB) (did uid : Nat) (ro : Role)
    (ce cd : Bool) :
    (addCollaborator db did uid ro ce cd).collabRows =
      if db.collabRows.any (fun r => r.deadline_id = did ∧ r.user_id = uid) then
        db.collabRows.map (fun r =>
          if r.deadline_id = did ∧ r.user_id = uid then
            { r with role := ro, can_edit := ce, can_delete := cd }
          else r)
      else db.collabRows ++ [⟨did, uid, ro, ce, cd⟩] := by
  unfold addCollaborator syncCollaboratorsToDeadline updateDeadlineRow
  split <;> rfl

/-- Helper: `find?` of the upsert key over the upsert-map image, when some
row already carries the key. -/
theorem find?_upsert_hit (did uid : Nat) (ro : Role) (ce cd : Bool) :
    ∀ l : List CollabRow,
      l.any (fun r => r.deadline_id = did ∧ r.user_id = uid) = true →
      (l.map (fun r =>
          if r.deadline_id = did ∧ r.user_id = uid then
            { r with role := ro, can_edit := ce, can_delete := cd }
          else r)).find? (fun r => r.deadline_id = did ∧ r.user_id = uid) =
        some ⟨did, uid, ro, ce, cd⟩
  | [], h => by cases h
  | r :: l, h => by
    by_cases hr : r.deadline_id = did ∧ r.user_id = uid
    · rw [List.map_cons, if_pos hr, List.find?_cons_of_pos _ (by simp [hr.1, hr.2])]
      obtain ⟨h1, h2⟩ := hr
      cases r
      simp_all
    · rw [List.map_cons, if_neg hr, List.find?_cons_of_neg _ (by simp [hr])]
      rw [List.any_cons] at h
      exact find?_upsert_hit did uid ro ce cd l (by simpa [hr] using h)

/-- Helper: the upsert-map image leaves `find?` at any other key unchanged. -/
theorem find?_upsert_other (did uid a b : Nat) (ro : Role) (ce cd : Bool)
    (hne : ¬(a = did ∧ b = uid)) :
    ∀ l : List CollabRow,
      (l.map (fun r =>
          if r.deadline_id = did ∧ r.user_id = uid then
            { r with role := ro, can_edit := ce, can_delete := cd }
          else r)).find? (fun r => r.deadline_id = a ∧ r.user_id = b) =
        l.find? (fun r => r.deadline_id = a ∧ r.user_id = b)
  | [] => rfl
  | r :: l => by
    by_cases hq : r.deadline_id = a ∧ r.user_id = b
    · have hr : ¬(r.deadline_id = did ∧ r.user_id = uid) := by
        intro hr
        exact hne ⟨hq.1 ▸ hr.1, hq.2 ▸ hr.2⟩
      rw [List.map_cons, if_neg hr, List.find?_cons_of_pos _ (by simp [hq]),
        List.find?_cons_of_pos _ (by simp [hq])]
    · by_cases hr : r.deadline_id = did ∧ r.user_id = uid
      · rw [List.map_cons, if_pos hr,
          List.find?_cons_of_neg _ (by simpa [hr.1, hr.2] using hq),
          List.find?_cons_of_neg _ (by simp [hq])]
        exact find?_upsert_other did uid a b ro ce cd hne l
      · rw [List.map_cons, if_neg hr, List.find?_cons_of_neg _ (by simp [hq]),
          List.find?_cons_of_neg _ (by simp [hq])]
        exact find?_upsert_other did uid a b ro ce cd hne l

/-- After the upsert, the `(did, uid)` row reads back with exactly the
written role and permission flags. -/
theorem collabFor_addCollaborator_self (db : DB) (did uid : Nat) (ro : Role)
    (ce cd : Bool) :
    collabFor (addCollaborator db did uid ro ce cd) did uid =
      some ⟨did, uid, ro, ce, cd⟩ := by
  show (addCollaborator db did uid ro ce cd).collabRows.find? _ = _
  rw [addCollaborator_collabRows]
  by_cases hany : db.collabRows.any
      (fun r => r.deadline_id = did ∧ r.user_id = uid) = true
  · rw [if_pos hany]
    exact find?_upsert_hit did uid ro ce cd db.collabRows hany
  · rw [if_neg hany, List.find?_append,
      find?_of_any_false (Bool.not_eq_true _ ▸ hany)]
    simp

/-- The upsert leaves every other `(deadline, user)` pair's row unchanged. -/
theorem collabFor_addCollaborator_other {a b : Nat} (db : DB) {did uid : Nat}
    (ro : Role) (ce cd : Bool) (hne : ¬(a = did ∧ b = uid)) :
    collabFor (addCollaborator db did uid ro ce cd) a b = collabFor db a b := by
  show (addCollaborator db did uid ro ce cd).collabRows.find? _ =
    db.collabRows.find? _
  rw [addCollaborator_collabRows]
  by_cases hany : db.collabRows.any
      (fun r => r.deadline_id = did ∧ r.user_id = uid) = true
  · rw [if_pos hany]
    exact find?_upsert_other did uid a b ro ce cd hne db.collabRows
  · rw [if_neg hany, List.find?_append]
    have hnew : ¬(did = a ∧ uid = b) := fun h => hne ⟨h.1.symm, h.2.symm⟩
    cases hl : db.collabRows.find? (fun r => r.deadline_id = a ∧ r.user_id = b) with
    | some x => simp
    | none => simp [List.find?_cons, hnew]

/-- The key list of the collaborator table. -/
def collabKeys (rows : List CollabRow) : List (Nat × Nat) :=
  rows.map (fun r => (r.deadline_id, r.user_id))

/-- The upsert preserves key uniqueness of the collaborator table (`UNIQUE
(deadline_id, user_id)`). -/
theorem collabKeys_addCollaborator_nodup {db : DB} (did uid : Nat) (ro : Role)
    (ce cd : Bool) (h : (collabKeys db.collabRows).Nodup) :
    (collabKeys (addCollaborator db did uid ro ce cd).collabRows).Nodup := by
  rw [addCollaborator_collabRows]
  by_cases hany : db.collabRows.any
      (fun r => r.deadline_id = did ∧ r.user_id = uid) = true
  · rw [if_pos hany]
    have : collabKeys (db.collabRows.map (fun r =>
        if r.deadline_id = did ∧ r.user_id = uid then
          { r with role := ro, can_edit := ce, can_delete := cd }
        else r)) = collabKeys db.collabRows := by
      unfold collabKeys
      rw [List.map_map]
      refine List.map_congr_left (fun r _ => ?_)
      by_cases hr : r.deadline_id = did ∧ r.user_id = uid <;> simp [hr]
    rw [this]
    exact h
  · rw [if_neg hany]
    unfold collabKeys
    rw [List.map_append, List.nodup_append]
    refine ⟨h, List.nodup_singleton _, ?_⟩
    intro k hk hk'
    simp only [List.map_cons, List.map_nil, List.mem_singleton] at hk'
    subst hk'
    rw [List.mem_map] at hk
    obtain ⟨r, hrmem, hrk⟩ := hk
    have : ¬(r.deadline_id = did ∧ r.user_id = uid) := by
      have := List.any_eq_false.mp (Bool.not_eq_true _ ▸ hany) r hrmem
      simpa using this
    exact this ⟨congrArg Prod.fst hrk, congrArg Prod.snd hrk⟩

/-- Every member of a list is bounded by its right fold with `max`. -/
theorem mem_le_foldr_max : ∀ (l : List Nat) (n : Nat), n ∈ l → n ≤ l.foldr max 0
  | [], _, h => absurd h (List.not_mem_nil _)
  | m :: l, n, h => by
    rw [List.foldr_cons]
    rcases List.mem_cons.mp h with h | h
    · exact h ▸ Nat.le_max_left _ _
    · exact Nat.le_trans (mem_le_foldr_max l n h) (Nat.le_max_right _ _)

/-- The SERIAL id of an inserted row is strictly above every existing id. -/
theorem mem_id_lt_freshId {db : DB} {d : DeadlineRow} (h : d ∈ db.deadlines) :
    d.id < freshId db :=
  Nat.lt_succ_of_le (mem_le_foldr_max _ _ (List.mem_map_of_mem (·.id) h))

/-- A deadline id that resolves keeps resolving to the same row after an
insert at the end of the table. -/
theorem findDeadline_append_of_found {db : DB} {i : Nat} {d : DeadlineRow}
    (h : findDeadline db i = some d) (r : DeadlineRow) :
    findDeadline { db with deadlines := db.deadlines ++ [r] } i = some d := by
  show (db.deadlines ++ [r]).find? _ = some d
  unfold findDeadline at h
  rw [List.find?_append, h]
  rfl

/-- An inserted row with a globally fresh id resolves to itself. -/
theorem findDeadline_append_fresh (db : DB) (r : DeadlineRow)
    (hfresh : ∀ d ∈ db.deadlines, d.id ≠ r.id) :
    findDeadline { db with deadlines := db.deadlines ++ [r] } r.id = some r := by
  show (db.deadlines ++ [r]).find? _ = some r
  rw [List.find?_append, find?_of_any_false (List.any_eq_false.mpr
    (fun d hd => by simp [hfresh d hd]))]
  simp

/-- `addCollaborator` leaves deadlines at other ids untouched. -/
theorem findDeadline_addCollaborator_ne (db : DB) (did uid : Nat) (ro : Role)
    (ce cd : Bool) {i : Nat} (hne : i ≠ did) :
    findDeadline (addCollaborator db did uid ro ce cd) i = findDeadline db i := by
  simp only [addCollaborator, syncCollaboratorsToDeadline]
  cases hd : findDeadline db i with
  | none =>
    refine findDeadline_updateDeadlineRow_none ?_ hd
    exact fun _ => rfl
  | some d =>
    refine findDeadline_updateDeadlineRow_other ?_ hd hne
    exact fun _ => rfl

/-- `addCollaborator` rewrites only the snapshot of the target deadline: the
row survives with all non-snapshot columns intact. -/
theorem findDeadline_addCollaborator_self (db : DB) (did uid : Nat) (ro : Role)
    (ce cd : Bool) {d : DeadlineRow} (h : findDeadline db did = some d) :
    ∃ d', findDeadline (addCollaborator db did uid ro ce cd) did = some d' ∧
      d'.id = d.id ∧ d'.student_id = d.student_id ∧ d'.title = d.title ∧
      d'.due_date = d.due_date ∧ d'.status = d.status ∧
      d'.notifications_sent = d.notifications_sent := by
  simp only [addCollaborator, syncCollaboratorsToDeadline]
  refine ⟨_, findDeadline_updateDeadlineRow_self ?_ h, rfl, rfl, rfl, rfl, rfl, rfl⟩
  exact fun _ => rfl

/-- `addCollaborator` preserves resolvability of every deadline id. -/
theorem findDeadline_addCollaborator_isSome (db : DB) (did uid : Nat) (ro : Role)
    (ce cd : Bool) (i : Nat) :
    (findDeadline (addCollaborator db did uid ro ce cd) i).isSome =
      (findDeadline db i).isSome := by
  simp only [addCollaborator, syncCollaboratorsToDeadline]
  rw [findDeadline_updateDeadlineRow _ _
    (fun d => { d with collaborators := syncedSnapshot _ did }) (fun _ => rfl) i,
    Option.isSome_map']
  rfl

/-- `createCopy` succeeds exactly on an existing original, appending one new
row with the fresh id, the candidate as owner, the copy-title, and the
requested (or default `pending`) status. -/
theorem createCopy_ok_spec {db : DB} {origId uid : Nat} {cdata : CopyData}
    {now : ℚ} {db' : DB} {row : DeadlineRow}
    (h : createCopy db origId uid cdata now = .ok (db', row)) :
    db' = { db with deadlines := db.deadlines ++ [row] } ∧
    row.id = freshId db ∧ row.student_id = uid ∧
    row.status = cdata.status.getD .pending ∧ row.collaborators = [] ∧
    ∃ o, findDeadline db origId = some o ∧
      row.title = (match cdata.title with
        | some t => t
        | none => copyTitle o.title (cdata.titleSuffix.getD " (Copy)")) := by
  unfold createCopy at h
  cases hf : findDeadline db origId with
  | none =>
    rw [hf] at h
    cases h
  | some o =>
    rw [hf] at h
    injection h with h
    have h1 := congrArg Prod.fst h
    have h2 := congrArg Prod.snd h
    simp only at h1 h2
    subst h1
    subst h2
    exact ⟨rfl, rfl, rfl, rfl, rfl, o, rfl, rfl⟩

/-- `createCopy` cannot fail when the original deadline resolves. -/
theorem createCopy_isOk {db : DB} {origId : Nat} (uid : Nat) (cdata : CopyData)
    (now : ℚ) (h : (findDeadline db origId).isSome = true) :
    ∃ p, createCopy db origId uid cdata now = .ok p := by
  unfold createCopy
  cases hf : findDeadline db origId with
  | none => rw [hf] at h; cases h
  | some o => exact ⟨_, rfl⟩

/-- Entries already in a snapshot survive the tracking-entry merge. -/
theorem addTrackingEntries_mem_preserved {e : SnapEntry} :
    ∀ (us : List UserRow) (cur : List SnapEntry), e ∈ cur →
      e ∈ addTrackingEntries cur us
  | [], _, h => h
  | u :: us, cur, h => by
    unfold addTrackingEntries
    rw [List.foldl_cons]
    refine addTrackingEntries_mem_preserved us _ ?_
    split
    · exact h
    · exact List.mem_append_left _ h

/-- The merge adds the copy-provenance entry for a selected user who is not
yet in the snapshot. -/
theorem addTrackingEntries_adds {uid : Nat} :
    ∀ (us : List UserRow) (cur : List SnapEntry),
      (∀ c ∈ cur, c.user_id ≠ uid) → (∃ u ∈ us, u.id = uid) →
      copyTrackingEntry uid ∈ addTrackingEntries cur us
  | [], _, _, hex => absurd hex (by simp)
  | u :: us, cur, hcur, hex => by
    unfold addTrackingEntries
    rw [List.foldl_cons]
    by_cases hu : u.id = uid
    · have hany : cur.any (fun c => c.user_id = u.id) = false :=
        List.any_eq_false.mpr (fun c hc => by simp [hu, hcur c hc])
      rw [if_neg (by simp [hany])]
      refine addTrackingEntries_mem_preserved us _ ?_
      rw [hu]
      exact List.mem_append_right _ (List.mem_singleton.mpr rfl)
    · have hex' : ∃ v ∈ us, v.id = uid := by
        rcases hex with ⟨v, hv, hvid⟩
        rcases List.mem_cons.mp hv with rfl | hv
        · exact absurd hvid hu
        · exact ⟨v, hv, hvid⟩
      split
      · exact addTrackingEntries_adds us cur hcur hex'
      · refine addTrackingEntries_adds us _ ?_ hex'
        intro c hc
        rcases List.mem_append.mp hc with hc | hc
        · exact hcur c hc
        · rw [List.mem_singleton.mp hc]
          simpa [copyTrackingEntry] using hu

/-- `updateOriginalDeadlineCollaboratorsList` on an existing deadline: an
id-targeted snapshot rewrite with the merged tracking entries. -/
theorem updateOriginalDeadlineCollaboratorsList_ok {db : DB} {did : Nat}
    (userIds : List Nat) {d : DeadlineRow} (h : findDeadline db did = some d) :
    updateOriginalDeadlineCollaboratorsList db did userIds = .ok
      (updateDeadlineRow db did (fun r =>
        { r with collaborators := (addTrackingEntries d.collaborators
            (db.users.filter (fun u => decide (u.id ∈ userIds)))) })) := by
  unfold updateOriginalDeadlineCollaboratorsList
  rw [h]

/-- A found user is a member and carries the looked-up id. -/
theorem findUser_id {db : DB} {uid : Nat} {u : UserRow}
    (h : findUser db uid = some u) : u ∈ db.users ∧ u.id = uid := by
  have := find?_spec h
  exact ⟨this.1, of_decide_eq_true this.2⟩

/-! ### Claim C1: access resolution returns owner / collaborator-row / none -/

/-- C1.  For an existing deadline `d` (under the data-model invariant that any
collaborator row held by the owning user carries role `owner`):
`canAccessDeadline` returns an access record with role `owner` when `uid` is
the owning user; otherwise it returns exactly the collaborator row for
`(did, uid)` if one exists; and a user whose only relation to the deadline is
a copy-provenance snapshot entry gets `none`. -/
theorem canAccessDeadline_owner_collab_copy (db : DB) (did uid : Nat)
    (d : DeadlineRow) (hfind : findDeadline db did = some d)
    (hwf : ∀ r ∈ db.collabRows,
      r.deadline_id = did → r.user_id = d.student_id → r.role = Role.owner) :
    (d.student_id = uid →
      ∃ a, canAccessDeadline db did uid = .ok (some a) ∧ a.role = Role.owner) ∧
    (d.student_id ≠ uid →
      canAccessDeadline db did uid =
        .ok ((collabFor db did uid).map fun r => ⟨r.role, r.can_edit, r.can_delete⟩)) ∧
    (d.student_id ≠ uid → collabFor db did uid = none →
      (∃ c ∈ d.collaborators,
        c.user_id = uid ∧ (c.role = SnapRole.copy_collaborator ∨ c.has_copy)) →
      canAccessDeadline db did uid = .ok none) := by
  refine ⟨?_, ?_, ?_⟩
  · intro howner
    unfold canAccessDeadline
    rw [hfind]
    cases hcol : collabFor db did uid with
    | none =>
      simp only [Option.orElse, howner, if_pos rfl]
      exact ⟨⟨Role.owner, true, true⟩, rfl, rfl⟩
    | some r =>
      have hr := find?_spec hcol
      have hrprop := of_decide_eq_true hr.2
      have hrole : r.role = Role.owner :=
        hwf r hr.1 hrprop.1 (by rw [hrprop.2, howner])
      simp only [Option.orElse]
      exact ⟨⟨r.role, r.can_edit, r.can_delete⟩, rfl, hrole⟩
  · intro hne
    unfold canAccessDeadline
    rw [hfind]
    cases hcol : collabFor db did uid with
    | none =>
      simp only [Option.orElse, if_neg hne, Option.map_none']
      cases d.collaborators.find? (fun c =>
          c.user_id = uid ∧ (c.role = SnapRole.copy_collaborator ∨ c.has_copy)) <;> rfl
    | some r => simp only [Option.orElse, Option.map_some']
  · intro hne hcol _
    unfold canAccessDeadline
    rw [hfind, hcol]
    simp only [Option.orElse, if_neg hne]
    cases d.collaborators.find? (fun c =>
        c.user_id = uid ∧ (c.role = SnapRole.copy_collaborator ∨ c.has_copy)) <;> rfl

/-- Witness for C1 on `dbC1`: owner 7 resolves to role `owner`, collaborator 8
resolves to their row, copy-only user 9 resolves to no access. -/
theorem canAccessDeadline_owner_collab_copy_witness :
    (∃ a, canAccessDeadline dbC1 2 7 = .ok (some a) ∧ a.role = Role.owner) ∧
    canAccessDeadline dbC1 2 8 =
      .ok ((collabFor dbC1 2 8).map fun r => ⟨r.role, r.can_edit, r.can_delete⟩) ∧
    canAccessDeadline dbC1 2 9 = .ok none := by
  have h7 := canAccessDeadline_owner_collab_copy dbC1 2 7
    { id := 2, student_id := 7, title := "Essay", due_date := 1000,
      status := .pending, created_at := 0,
      collaborators := [{ user_id := 9, role := .copy_collaborator,
                          can_edit := false, can_delete := false, has_copy := true }],
      notifications_sent := [] } (by decide) (by decide)
  have h8 := canAccessDeadline_owner_collab_copy dbC1 2 8
    { id := 2, student_id := 7, title := "Essay", due_date := 1000,
      status := .pending, created_at := 0,
      collaborators := [{ user_id := 9, role := .copy_collaborator,
                          can_edit := false, can_delete := false, has_copy := true }],
      notifications_sent := [] } (by decide) (by decide)
  have h9 := canAccessDeadline_owner_collab_copy dbC1 2 9
    { id := 2, student_id := 7, title := "Essay", due_date := 1000,
      status := .pending, created_at := 0,
      collaborators := [{ user_id := 9, role := .copy_collaborator,
                          can_edit := false, can_delete := false, has_copy := true }],
      notifications_sent := [] } (by decide) (by decide)
  refine ⟨h7.1 (by decide), h8.2.1 (by decide), ?_⟩
  exact h9.2.2 (by decide) (by decide)
    ⟨{ user_id := 9, role := .copy_collaborator, can_edit := false,
       can_delete := false, has_copy := true }, by decide, by decide, Or.inl rfl⟩

/-! ### Claim C9: behaviour of access resolution on a missing deadline -/

/-- C9 counterexample.  The spec claims `canAccessDeadline` fails with a
`NotFound` error when the deadline does not exist; on the code it returns
`null` (`.ok none`) in that case, the same value as the plain no-access case. -/
theorem canAccessDeadline_missing_counterexample :
    findDeadline dbC9 1 = none ∧
    ¬ ∃ e, canAccessDeadline dbC9 1 5 = Except.error e := by
  refine ⟨by decide, ?_⟩
  rintro ⟨e, he⟩
  rw [show canAccessDeadline dbC9 1 5 = Except.ok none from rfl] at he
  cases he

/-- C9 amended.  `canAccessDeadline` returns `.ok none` (no access, no error)
both when the deadline id does not exist and when the deadline exists but the
user is neither its owner nor holds a collaborator row. -/
theorem canAccessDeadline_missing_amended (db : DB) (did uid : Nat) :
    (findDeadline db did = none → canAccessDeadline db did uid = .ok none) ∧
    (∀ d, findDeadline db did = some d → d.student_id ≠ uid →
      collabFor db did uid = none → canAccessDeadline db did uid = .ok none) := by
  constructor
  · intro hnone
    unfold canAccessDeadline
    rw [hnone]
    cases collabFor db did uid <;> rfl
  · intro d hfind hne hcol
    unfold canAccessDeadline
    rw [hfind, hcol]
    simp only [Option.orElse, if_neg hne]
    cases d.collaborators.find? (fun c =>
        c.user_id = uid ∧ (c.role = SnapRole.copy_collaborator ∨ c.has_copy)) <;> rfl

/-- Witness for the amended C9 on `dbC9`: the missing deadline 1 and the
existing-but-inaccessible deadline 2 both resolve to `.ok none` for user 5. -/
theorem canAccessDeadline_missing_amended_witness :
    canAccessDeadline dbC9 1 5 = .ok none ∧
    canAccessDeadline dbC9 2 5 = .ok none := by
  have h1 := canAccessDeadline_missing_amended dbC9 1 5
  have h2 := canAccessDeadline_missing_amended dbC9 2 5
  exact ⟨h1.1 (by decide),
    h2.2 { id := 2, student_id := 7, title := "Lab", due_date := 1000,
           status := .pending, created_at := 0, collaborators := [],
           notifications_sent := [] } (by decide) (by decide) (by decide)⟩

/-! #### Controller-pipeline lemmas -/

/-- Inversion for `Except.map` hitting `.ok`. -/
theorem exceptMap_ok_inv {α β ε : Type} {g : α → β} {e : Except ε α} {x : β}
    (h : e.map g = .ok x) : ∃ y, e = .ok y ∧ x = g y := by
  cases e with
  | error err => simp [Except.map] at h
  | ok y =>
    refine ⟨y, rfl, ?_⟩
    simpa [Except.map] using h.symm

/-- Everything the validation loop lets through: not the requester, not the
owner, not already a collaborator, and in an accepted friendship with the
requester. -/
theorem validateCandidates_mem_valid (db : DB) (did : Nat) (dl : DeadlineRow)
    (req : Nat) :
    ∀ (L : List Nat) (v : List Nat) (sk : List Skip) (c : Nat),
      validateCandidates db did dl req L = .ok (v, sk) → c ∈ v →
      c ≠ req ∧ c ≠ dl.student_id ∧ collabFor db did c = none ∧
      (∃ f, getFriendshipStatus db req c = some f ∧
        f.status = FriendStatus.accepted)
  | [], v, sk, c, h, hc => by
    simp only [validateCandidates] at h
    injection h with h
    injection h with h1 h2
    subst h1
    cases hc
  | c₀ :: rest, v, sk, c, h, hc => by
    by_cases h1 : c₀ = req
    · rw [validateCandidates, if_pos h1] at h
      obtain ⟨⟨v', sk'⟩, hrec, hx⟩ := exceptMap_ok_inv h
      have hv : v = v' := congrArg Prod.fst hx
      exact validateCandidates_mem_valid db did dl req rest v' sk' c hrec (hv ▸ hc)
    · rw [validateCandidates, if_neg h1] at h
      by_cases h2 : c₀ = dl.student_id
      · rw [if_pos h2] at h
        obtain ⟨⟨v', sk'⟩, hrec, hx⟩ := exceptMap_ok_inv h
        have hv : v = v' := congrArg Prod.fst hx
        exact validateCandidates_mem_valid db did dl req rest v' sk' c hrec (hv ▸ hc)
      · rw [if_neg h2] at h
        cases hcol : collabFor db did c₀ with
        | some r =>
          simp only [hcol] at h
          obtain ⟨⟨v', sk'⟩, hrec, hx⟩ := exceptMap_ok_inv h
          have hv : v = v' := congrArg Prod.fst hx
          exact validateCandidates_mem_valid db did dl req rest v' sk' c hrec (hv ▸ hc)
        | none =>
          simp only [hcol] at h
          cases huser : findUser db c₀ with
          | none =>
            simp only [huser] at h
            exact Except.noConfusion h
          | some u =>
            simp only [huser] at h
            cases hfr : getFriendshipStatus db req c₀ with
            | none =>
              simp only [hfr] at h
              exact Except.noConfusion h
            | some f =>
              simp only [hfr] at h
              by_cases hacc : f.status = FriendStatus.accepted
              · rw [if_pos hacc] at h
                obtain ⟨⟨v', sk'⟩, hrec, hx⟩ := exceptMap_ok_inv h
                have hv : v = c₀ :: v' := congrArg Prod.fst hx
                rw [hv] at hc
                rcases List.mem_cons.mp hc with rfl | hc
                · exact ⟨h1, h2, hcol, f, hfr, hacc⟩
                · exact validateCandidates_mem_valid db did dl req rest v' sk' c hrec hc
              · rw [if_neg hacc] at h
                exact Except.noConfusion h

/-- Re-running the validation loop after every previously valid candidate has
gained a collaborator row turns the whole list into skips: an empty valid
list, with an `already a collaborator` skip for each previously valid
candidate. -/
theorem validateCandidates_after (db db' : DB) (did req : Nat)
    (dl dl' : DeadlineRow) (hsid : dl'.student_id = dl.student_id)
    (hmono : ∀ c r, collabFor db did c = some r →
      ∃ r', collabFor db' did c = some r') :
    ∀ (L : List Nat) (v : List Nat) (sk : List Skip),
      validateCandidates db did dl req L = .ok (v, sk) →
      (∀ c ∈ v, ∃ r', collabFor db' did c = some r') →
      ∃ sk₂, validateCandidates db' did dl' req L = .ok ([], sk₂) ∧
        ∀ c ∈ v, (⟨c, "User is already a collaborator"⟩ : Skip) ∈ sk₂
  | [], v, sk, h, _ => by
    simp only [validateCandidates] at h
    injection h with h
    injection h with h1 h2
    subst h1
    refine ⟨[], by simp [validateCandidates], ?_⟩
    intro c hc
    cases hc
  | c₀ :: rest, v, sk, h, hrows => by
    by_cases h1 : c₀ = req
    · rw [validateCandidates, if_pos h1] at h
      obtain ⟨⟨v', sk'⟩, hrec, hx⟩ := exceptMap_ok_inv h
      have hv : v = v' := congrArg Prod.fst hx
      subst hv
      obtain ⟨sk₂, hok, hm⟩ :=
        validateCandidates_after db db' did req dl dl' hsid hmono rest _ _ hrec hrows
      refine ⟨⟨c₀, "Cannot add yourself as collaborator"⟩ :: sk₂, ?_, ?_⟩
      · rw [validateCandidates, if_pos h1, hok]
        rfl
      · exact fun c hc => List.mem_cons_of_mem _ (hm c hc)
    · rw [validateCandidates, if_neg h1] at h
      by_cases h2 : c₀ = dl.student_id
      · rw [if_pos h2] at h
        obtain ⟨⟨v', sk'⟩, hrec, hx⟩ := exceptMap_ok_inv h
        have hv : v = v' := congrArg Prod.fst hx
        subst hv
        obtain ⟨sk₂, hok, hm⟩ :=
          validateCandidates_after db db' did req dl dl' hsid hmono rest _ _ hrec hrows
        refine ⟨⟨c₀, "Cannot add deadline owner as collaborator - they already own this deadline"⟩ :: sk₂, ?_, ?_⟩
        · rw [validateCandidates, if_neg h1, if_pos (by rw [hsid]; exact h2), hok]
          rfl
        · exact fun c hc => List.mem_cons_of_mem _ (hm c hc)
      · rw [if_neg h2] at h
        cases hcol : collabFor db did c₀ with
        | some r =>
          simp only [hcol] at h
          obtain ⟨⟨v', sk'⟩, hrec, hx⟩ := exceptMap_ok_inv h
          have hv : v = v' := congrArg Prod.fst hx
          subst hv
          obtain ⟨sk₂, hok, hm⟩ :=
            validateCandidates_after db db' did req dl dl' hsid hmono rest _ _ hrec hrows
          obtain ⟨r', hr'⟩ := hmono c₀ r hcol
          refine ⟨⟨c₀, "User is already a collaborator"⟩ :: sk₂, ?_, ?_⟩
          · rw [validateCandidates, if_neg h1,
              if_neg (by rw [hsid]; exact h2), hr', hok]
            rfl
          · exact fun c hc => List.mem_cons_of_mem _ (hm c hc)
        | none =>
          simp only [hcol] at h
          cases huser : findUser db c₀ with
          | none =>
            simp only [huser] at h
            exact Except.noConfusion h
          | some u =>
            simp only [huser] at h
            cases hfr : getFriendshipStatus db req c₀ with
            | none =>
              simp only [hfr] at h
              exact Except.noConfusion h
            | some f =>
              simp only [hfr] at h
              by_cases hacc : f.status = FriendStatus.accepted
              · rw [if_pos hacc] at h
                obtain ⟨⟨v', sk'⟩, hrec, hx⟩ := exceptMap_ok_inv h
                have hv : v = c₀ :: v' := congrArg Prod.fst hx
                subst hv
                have hrows' : ∀ c ∈ v', ∃ r', collabFor db' did c = some r' :=
                  fun c hc => hrows c (List.mem_cons_of_mem _ hc)
                obtain ⟨sk₂, hok, hm⟩ :=
                  validateCandidates_after db db' did req dl dl' hsid hmono rest _ _
                    hrec hrows'
                obtain ⟨r', hr'⟩ := hrows c₀ (List.mem_cons_self _ _)
                refine ⟨⟨c₀, "User is already a collaborator"⟩ :: sk₂, ?_, ?_⟩
                · rw [validateCandidates, if_neg h1,
                    if_neg (by rw [hsid]; exact h2), hr', hok]
                  rfl
                · intro c hc
                  rcases List.mem_cons.mp hc with rfl | hc
                  · exact List.mem_cons_self _ _
                  · exact List.mem_cons_of_mem _ (hm c hc)
              · rw [if_neg hacc] at h
                exact Except.noConfusion h

/-- The traditional-add loop returns one non-denied, non-copy entry per
candidate, in order. -/
theorem directAddLoop_entries (did : Nat) :
    ∀ (uids : List Nat) (db : DB),
      (directAddLoop db did uids).2 = uids.map (fun u =>
        { user_id := u, deadline_id := some did, is_copy := false,
          denied := false, is_original_owner := false, failed := false })
  | [], _ => rfl
  | _ :: rest, db => by
    simp only [directAddLoop, List.map_cons]
    rw [directAddLoop_entries did rest]

/-- After the traditional-add loop, every candidate holds exactly the
`collaborator / can_edit / no can_delete` row; other users are untouched. -/
theorem directAddLoop_collabFor (did : Nat) :
    ∀ (uids : List Nat) (db : DB) (u : Nat),
      collabFor (directAddLoop db did uids).1 did u =
        if u ∈ uids then some ⟨did, u, .collaborator, true, false⟩
        else collabFor db did u
  | [], db, u => by simp [directAddLoop]
  | u₀ :: rest, db, u => by
    simp only [directAddLoop]
    rw [directAddLoop_collabFor did rest]
    by_cases hu : u ∈ rest
    · rw [if_pos hu, if_pos (List.mem_cons_of_mem _ hu)]
    · rw [if_neg hu]
      by_cases hu0 : u = u₀
      · subst hu0
        rw [collabFor_addCollaborator_self, if_pos (List.mem_cons_self _ _)]
      · rw [collabFor_addCollaborator_other _ _ _ _ (fun hh => hu0 hh.2),
          if_neg (by simp [hu0, hu])]

/-- A user outside the candidate list keeps all their collaborator rows
unchanged through the traditional-add loop. -/
theorem directAddLoop_collabFor_notin (did : Nat) :
    ∀ (uids : List Nat) (db : DB) (a b : Nat), b ∉ uids →
      collabFor (directAddLoop db did uids).1 a b = collabFor db a b
  | [], _, _, _, _ => rfl
  | u₀ :: rest, db, a, b, hb => by
    simp only [directAddLoop]
    rw [directAddLoop_collabFor_notin did rest _ a b
      (fun h => hb (List.mem_cons_of_mem _ h)),
      collabFor_addCollaborator_other _ _ _ _
        (fun hh => hb (by rw [hh.2]; exact List.mem_cons_self _ _))]

/-- The traditional-add loop only rewrites snapshots: every deadline keeps
its owning user. -/
theorem directAddLoop_studentId (did : Nat) :
    ∀ (uids : List Nat) (db : DB) (i : Nat),
      (findDeadline (directAddLoop db did uids).1 i).map (fun r => r.student_id) =
        (findDeadline db i).map (fun r => r.student_id)
  | [], _, _ => rfl
  | u₀ :: rest, db, i => by
    simp only [directAddLoop]
    rw [directAddLoop_studentId did rest]
    simp only [addCollaborator, syncCollaboratorsToDeadline]
    refine (findDeadline_updateDeadlineRow_map _ _ _ ?_ _ ?_ i).trans ?_
    · exact fun _ => rfl
    · exact fun _ => rfl
    · rfl

/-- The traditional-add loop preserves key uniqueness of the collaborator
table. -/
theorem directAddLoop_keys_nodup (did : Nat) :
    ∀ (uids : List Nat) (db : DB),
      (collabKeys db.collabRows).Nodup →
      (collabKeys (directAddLoop db did uids).1.collabRows).Nodup
  | [], _, h => h
  | u₀ :: rest, db, h => by
    simp only [directAddLoop]
    exact directAddLoop_keys_nodup did rest _
      (collabKeys_addCollaborator_nodup did u₀ .collaborator true false h)

/-- The copy loop never touches collaborator rows of users outside the
candidate list. -/
theorem copyLoop_collabFor_notin (origId rootId rootOwner : Nat)
    (suffix : String) (now : ℚ) :
    ∀ (uids : List Nat) (db : DB) (a b : Nat), b ∉ uids →
      collabFor (copyLoop origId rootId rootOwner suffix now db uids).1 a b =
        collabFor db a b
  | [], _, _, _, _ => rfl
  | uid :: rest, db, a, b, hb => by
    have hbu : b ≠ uid := fun h => hb (h ▸ List.mem_cons_self _ _)
    have hbr : b ∉ rest := fun h => hb (List.mem_cons_of_mem _ h)
    by_cases huid : uid = rootOwner
    · subst huid
      by_cases hne : rootId ≠ origId
      · simp only [copyLoop, if_pos rfl, if_pos hne]
        exact copyLoop_collabFor_notin origId rootId uid suffix now rest db a b hbr
      · have heq : rootId = origId := not_not.mp hne
        subst heq
        simp only [copyLoop, if_pos rfl, if_neg (fun h : rootId ≠ rootId => h rfl)]
        rw [if_pos trivial]
        rw [copyLoop_collabFor_notin rootId rootId uid suffix now rest _ a b hbr,
          collabFor_addCollaborator_other _ _ _ _ (fun hh => hbu hh.2)]
    · simp only [copyLoop, if_neg huid]
      cases hcc : createCopy db origId uid
          { titleSuffix := some suffix, status := some .pending } now with
      | ok p =>
        obtain ⟨hdb1, -, -, -, -, -, -, -⟩ :=
          createCopy_ok_spec (show createCopy db origId uid
            { titleSuffix := some suffix, status := some .pending } now =
              .ok (p.1, p.2) by rw [hcc])
        rw [copyLoop_collabFor_notin origId rootId rootOwner suffix now rest _ a b hbr,
          collabFor_addCollaborator_other _ _ _ _ (fun hh => hbu hh.2), hdb1]
        rfl
      | error e =>
        exact copyLoop_collabFor_notin origId rootId rootOwner suffix now rest db a b hbr

/-! ### Claim C2: root-owner denial on copies -/

/-- In the copy loop of `createCollaboratorCopies`, when the resolved root
differs from the current deadline, the root owner always receives the denied
entry (`Cannot add original owner to a copy of their own deadline`). -/
theorem copyLoop_denied_mem (origId rootId rootOwner : Nat) (suffix : String)
    (now : ℚ) (hne : rootId ≠ origId) :
    ∀ (uids : List Nat) (db : DB), rootOwner ∈ uids →
      ({ user_id := rootOwner, deadline_id := none, is_copy := false,
         denied := true, is_original_owner := true, failed := false } : CopyEntry) ∈
        (copyLoop origId rootId rootOwner suffix now db uids).2
  | [], _, h => absurd h (List.not_mem_nil _)
  | uid :: rest, db, h => by
    by_cases huid : uid = rootOwner
    · subst huid
      simp only [copyLoop, if_pos rfl, if_pos hne]
      exact List.mem_cons_self _ _
    · have hrest : rootOwner ∈ rest := by
        rcases List.mem_cons.mp h with h | h
        · exact absurd h.symm huid
        · exact h
      simp only [copyLoop, if_neg huid]
      cases hcc : createCopy db origId uid
          { titleSuffix := some suffix, status := some .pending } now with
      | ok p =>
        exact List.mem_cons_of_mem _
          (copyLoop_denied_mem origId rootId rootOwner suffix now hne rest
            (addCollaborator p.1 p.2.id uid .owner true true) hrest)
      | error e =>
        exact List.mem_cons_of_mem _
          (copyLoop_denied_mem origId rootId rootOwner suffix now hne rest db hrest)

/-- When the resolved root differs from the current deadline, the copy loop
never touches collaborator rows of the current deadline: copies live under
fresh ids and the owner-as-collaborator branch is unreachable. -/
theorem copyLoop_collabFor_ne_root (origId rootId rootOwner : Nat)
    (suffix : String) (now : ℚ) (hne : rootId ≠ origId) :
    ∀ (uids : List Nat) (db : DB) (u : Nat),
      collabFor (copyLoop origId rootId rootOwner suffix now db uids).1 origId u =
        collabFor db origId u
  | [], _, _ => rfl
  | uid :: rest, db, u => by
    by_cases huid : uid = rootOwner
    · subst huid
      simp only [copyLoop, if_pos rfl, if_pos hne]
      exact copyLoop_collabFor_ne_root origId rootId _ suffix now hne rest db u
    · simp only [copyLoop, if_neg huid]
      cases hcc : createCopy db origId uid
          { titleSuffix := some suffix, status := some .pending } now with
      | ok p =>
        obtain ⟨hdb1, hrowid, -, -, -, o, hfo, -⟩ :=
          createCopy_ok_spec (show createCopy db origId uid
            { titleSuffix := some suffix, status := some .pending } now =
              .ok (p.1, p.2) by rw [hcc])
        have hoid : o.id = origId := (findDeadline_id hfo).2
        have hlt : o.id < freshId db := mem_id_lt_freshId (findDeadline_id hfo).1
        have hne' : origId ≠ p.2.id := by
          rw [hrowid, ← hoid]
          exact Nat.ne_of_lt hlt
        rw [copyLoop_collabFor_ne_root origId rootId rootOwner suffix now hne rest _ u,
          collabFor_addCollaborator_other _ _ _ _ (fun hh => hne' hh.1), hdb1]
        rfl
      | error e =>
        exact copyLoop_collabFor_ne_root origId rootId rootOwner suffix now hne rest db u

/-- When the current deadline is its own resolved root, the loop adds the
root owner as a plain collaborator row (`role 'collaborator', can_edit,
no can_delete`) on the current deadline and reports a non-denied entry. -/
theorem copyLoop_root_self (origId rootOwner : Nat) (suffix : String) (now : ℚ) :
    ∀ (uids : List Nat) (db : DB),
      (findDeadline db origId).isSome = true →
      (findDeadline (copyLoop origId origId rootOwner suffix now db uids).1
          origId).isSome = true ∧
      (collabFor db origId rootOwner =
          some ⟨origId, rootOwner, .collaborator, true, false⟩ →
        collabFor (copyLoop origId origId rootOwner suffix now db uids).1
            origId rootOwner =
          some ⟨origId, rootOwner, .collaborator, true, false⟩) ∧
      (rootOwner ∈ uids →
        collabFor (copyLoop origId origId rootOwner suffix now db uids).1
            origId rootOwner =
          some ⟨origId, rootOwner, .collaborator, true, false⟩ ∧
        ({ user_id := rootOwner, deadline_id := some origId, is_copy := false,
           denied := false, is_original_owner := true, failed := false } : CopyEntry) ∈
          (copyLoop origId origId rootOwner suffix now db uids).2)
  | [], db, hP => ⟨hP, fun h => h, fun h => absurd h (List.not_mem_nil _)⟩
  | uid :: rest, db, hP => by
    by_cases huid : uid = rootOwner
    · subst huid
      simp only [copyLoop, if_pos rfl, if_neg (fun h : origId ≠ origId => h rfl)]
      have hP1 : (findDeadline
          (addCollaborator db origId uid .collaborator true false) origId).isSome = true := by
        rw [findDeadline_addCollaborator_isSome]
        exact hP
      have hrow1 := collabFor_addCollaborator_self db origId uid .collaborator true false
      have ih := copyLoop_root_self origId uid suffix now rest _ hP1
      exact ⟨ih.1, fun _ => ih.2.1 hrow1,
        fun _ => ⟨ih.2.1 hrow1, List.mem_cons_self _ _⟩⟩
    · simp only [copyLoop, if_neg huid]
      obtain ⟨p, hcc⟩ := createCopy_isOk uid
        { titleSuffix := some suffix, status := some .pending } now hP
      rw [hcc]
      obtain ⟨hdb1, hrowid, -, -, -, o, hfo, -⟩ :=
        createCopy_ok_spec (show createCopy db origId uid
          { titleSuffix := some suffix, status := some .pending } now =
            .ok (p.1, p.2) by rw [hcc])
      have hoid : o.id = origId := (findDeadline_id hfo).2
      have hne' : origId ≠ p.2.id := by
        rw [hrowid, ← hoid]
        exact Nat.ne_of_lt (mem_id_lt_freshId (findDeadline_id hfo).1)
      have hP1 : (findDeadline p.1 origId).isSome = true := by
        rw [hdb1, findDeadline_append_of_found hfo]
        rfl
      have hP2 : (findDeadline
          (addCollaborator p.1 p.2.id uid .owner true true) origId).isSome = true := by
        rw [findDeadline_addCollaborator_isSome]
        exact hP1
      have hcoll : collabFor (addCollaborator p.1 p.2.id uid .owner true true)
          origId rootOwner = collabFor db origId rootOwner := by
        rw [collabFor_addCollaborator_other _ _ _ _ (fun hh => hne' hh.1), hdb1]
        rfl
      have ih := copyLoop_root_self origId rootOwner suffix now rest _ hP2
      refine ⟨ih.1, fun h => ih.2.1 (hcoll.trans h), fun hmem => ?_⟩
      have hrest : rootOwner ∈ rest := by
        rcases List.mem_cons.mp hmem with h | h
        · exact absurd h.symm huid
        · exact h
      exact ⟨(ih.2.2 hrest).1, List.mem_cons_of_mem _ (ih.2.2 hrest).2⟩

/-- C2.  For a deadline whose root resolves (via the title copy-suffix
heuristic) to `(rootId, u1)`: if the current deadline is a copy
(`rootId ≠ origId`), running `createCollaboratorCopies` with copies enabled
and `u1` among the candidates always yields the denied entry for `u1` and
leaves `u1`'s collaborator row on the current deadline unchanged (none is
created); if instead the current deadline is itself the root, `u1` is added
as a normal collaborator row rather than denied. -/
theorem createCollaboratorCopies_rootOwnerDenied (db : DB) (origId : Nat)
    (userIds : List Nat) (suffix : String) (now : ℚ) (cur : DeadlineRow)
    (rootId u1 : Nat) (hfind : findDeadline db origId = some cur)
    (hroot : resolveRoot db cur origId = (rootId, u1)) (hmem : u1 ∈ userIds) :
    ∃ db' entries,
      createCollaboratorCopies db origId userIds true suffix now =
        .ok (db', entries) ∧
      (rootId ≠ origId →
        ({ user_id := u1, deadline_id := none, is_copy := false, denied := true,
           is_original_owner := true, failed := false } : CopyEntry) ∈ entries ∧
        collabFor db' origId u1 = collabFor db origId u1) ∧
      (rootId = origId →
        ({ user_id := u1, deadline_id := some origId, is_copy := false,
           denied := false, is_original_owner := true, failed := false } : CopyEntry) ∈ entries ∧
        collabFor db' origId u1 = some ⟨origId, u1, Role.collaborator, true, false⟩) := by
  refine ⟨(copyLoop origId rootId u1 suffix now db userIds).1,
    (copyLoop origId rootId u1 suffix now db userIds).2, ?_, ?_, ?_⟩
  · simp only [createCollaboratorCopies, hfind, hroot, if_pos]
  · intro hne
    exact ⟨copyLoop_denied_mem origId rootId u1 suffix now hne userIds db hmem,
      copyLoop_collabFor_ne_root origId rootId u1 suffix now hne userIds db u1⟩
  · intro heq
    subst heq
    have h := copyLoop_root_self rootId u1 suffix now userIds db (by rw [hfind]; rfl)
    exact ⟨(h.2.2 hmem).2, (h.2.2 hmem).1⟩

/-- Witness for C2 on `dbC2`: adding user 1 (owner of the root "Thesis") to
the copy deadline 101 is denied and creates no row for user 1 on 101, while
adding user 1 on the root deadline 100 itself makes them a plain
collaborator. -/
theorem createCollaboratorCopies_rootOwnerDenied_witness :
    (∃ db' entries,
      createCollaboratorCopies dbC2 101 [1] true " (My Copy)" 0 =
        .ok (db', entries) ∧
      ({ user_id := 1, deadline_id := none, is_copy := false, denied := true,
         is_original_owner := true, failed := false } : CopyEntry) ∈ entries ∧
      collabFor db' 101 1 = none) ∧
    (∃ db' entries,
      createCollaboratorCopies dbC2 100 [1] true " (My Copy)" 0 =
        .ok (db', entries) ∧
      ({ user_id := 1, deadline_id := some 100, is_copy := false,
         denied := false, is_original_owner := true, failed := false } : CopyEntry) ∈ entries ∧
      collabFor db' 100 1 = some ⟨100, 1, Role.collaborator, true, false⟩) := by
  constructor
  · obtain ⟨db', entries, hok, hcase, -⟩ :=
      createCollaboratorCopies_rootOwnerDenied dbC2 101 [1] " (My Copy)" 0
        dC2copy 100 1 rfl rfl (by decide)
    have h := hcase (by decide)
    exact ⟨db', entries, hok, h.1, by rw [h.2]; rfl⟩
  · obtain ⟨db', entries, hok, -, hcase⟩ :=
      createCollaboratorCopies_rootOwnerDenied dbC2 100 [1] " (My Copy)" 0
        dC2root 100 1 rfl rfl (by decide)
    have h := hcase rfl
    exact ⟨db', entries, hok, h.1, h.2⟩

/-! ### Claim C3: candidates who are not accepted friends -/

/-- A successful snapshot-tracking update never touches collaborator rows. -/
theorem updateOriginalDeadlineCollaboratorsList_collabFor {db db2 : DB}
    {did : Nat} {userIds : List Nat}
    (h : updateOriginalDeadlineCollaboratorsList db did userIds = .ok db2) :
    ∀ a b, collabFor db2 a b = collabFor db a b := by
  unfold updateOriginalDeadlineCollaboratorsList at h
  cases hf : findDeadline db did with
  | none =>
    rw [hf] at h
    cases h
  | some d =>
    rw [hf] at h
    injection h with h
    subst h
    intro a b
    rfl

/-- `createCollaboratorCopies` leaves every collaborator row of a user
outside the candidate list unchanged. -/
theorem createCollaboratorCopies_collabFor_notin {db db1 : DB} {did : Nat}
    {uids : List Nat} {cic : Bool} {suffix : String} {now : ℚ}
    {copies : List CopyEntry}
    (h : createCollaboratorCopies db did uids cic suffix now = .ok (db1, copies))
    {b : Nat} (hb : b ∉ uids) : ∀ a, collabFor db1 a b = collabFor db a b := by
  unfold createCollaboratorCopies at h
  split at h
  · cases hf : findDeadline db did with
    | none =>
      rw [hf] at h
      cases h
    | some cur =>
      rw [hf] at h
      injection h with h
      have h1 := congrArg Prod.fst h
      simp only at h1
      subst h1
      exact fun a => copyLoop_collabFor_notin did _ _ suffix now uids db a b hb
  · injection h with h
    have h1 := congrArg Prod.fst h
    simp only at h1
    subst h1
    exact fun a => directAddLoop_collabFor_notin did uids db a b hb

/-- `addCollaboratorsWithCopies` leaves every collaborator row of a user
outside the candidate list unchanged, on all paths. -/
theorem addCollaboratorsWithCopies_collabFor_notin (db : DB) (did : Nat)
    (uids : List Nat) (cc cic : Bool) (suffix : String) (now : ℚ)
    {b : Nat} (hb : b ∉ uids) (a : Nat) :
    collabFor (addCollaboratorsWithCopies db did uids cc cic suffix now).1 a b =
      collabFor db a b := by
  unfold addCollaboratorsWithCopies
  split
  · cases h1 : createCollaboratorCopies db did uids cic suffix now with
    | error e => rfl
    | ok p =>
      obtain ⟨db1, copies⟩ := p
      show collabFor (match updateOriginalDeadlineCollaboratorsList db1 did uids with
        | .error e => (db1, Except.error e)
        | .ok db2 => (db2, Except.ok copies)).1 a b = collabFor db a b
      cases h2 : updateOriginalDeadlineCollaboratorsList db1 did uids with
      | error e =>
        show collabFor db1 a b = collabFor db a b
        exact createCollaboratorCopies_collabFor_notin h1 hb a
      | ok db2 =>
        show collabFor db2 a b = collabFor db a b
        rw [updateOriginalDeadlineCollaboratorsList_collabFor h2 a b]
        exact createCollaboratorCopies_collabFor_notin h1 hb a
  · exact directAddLoop_collabFor_notin did uids db a b hb

/-- C3 counterexample.  On `dbC3`, adding `[20, 30]` (20 not a friend, 30 an
accepted friend) does not skip 20 and continue: the whole request fails with
the 400 friends-list error, the store is unchanged, and the valid candidate
30 is never added. -/
theorem addCollaborators_notFriends_counterexample :
    addCollaboratorsToDeadline dbC3 1 10 [20, 30] false true " (My Copy)" 0 =
      (dbC3, .candidateError "User 20 is not in your friends list") ∧
    collabFor (addCollaboratorsToDeadline dbC3 1 10 [20, 30] false true
      " (My Copy)" 0).1 1 30 = none := by
  constructor
  · rfl
  · rfl

/-- C3 amended.  A candidate `C` whose friendship with the requester is
missing or not `accepted` still never receives a real or copied
collaboration — but not via a per-candidate skip: (i) when the validation
loop reaches `C` it aborts the whole request with the 400 error
`User C is not in your friends list` (later candidates are not processed),
and (ii) on every path of the operation, `C` gains no collaborator row on
any deadline. -/
theorem addCollaborators_notFriends_amended (db : DB) (did req : Nat) :
    (∀ (dl : DeadlineRow) (C : Nat) (rest : List Nat) (u : UserRow),
      C ≠ req → C ≠ dl.student_id → collabFor db did C = none →
      findUser db C = some u →
      (∀ f, getFriendshipStatus db req C = some f →
        f.status ≠ FriendStatus.accepted) →
      validateCandidates db did dl req (C :: rest) =
        .error ("User " ++ toString C ++ " is not in your friends list")) ∧
    (∀ (C : Nat) (candidates : List Nat) (cc cic : Bool) (suffix : String)
      (now : ℚ),
      (∀ f, getFriendshipStatus db req C = some f →
        f.status ≠ FriendStatus.accepted) →
      ∀ a, collabFor
        (addCollaboratorsToDeadline db did req candidates cc cic suffix now).1
          a C =
        collabFor db a C) := by
  constructor
  · intro dl C rest u h1 h2 hcol huser hfr
    rw [validateCandidates, if_neg h1, if_neg h2]
    simp only [hcol, huser]
    cases hf : getFriendshipStatus db req C with
    | none => rfl
    | some f => exact if_neg (hfr f hf)
  · intro C candidates cc cic suffix now hfr a
    unfold addCollaboratorsToDeadline
    split
    · rfl
    · split
      · rfl
      · rename_i dl hdl
        split
        · split
          · rfl
          · rename_i valid skipped hval
            split
            · rfl
            · have hCnot : C ∉ valid := by
                intro hmem
                obtain ⟨-, -, -, f, hf, hacc⟩ := validateCandidates_mem_valid
                  db did dl req candidates valid skipped C hval hmem
                exact hfr f hf hacc
              have hpres := addCollaboratorsWithCopies_collabFor_notin db did
                valid cc cic suffix now hCnot a
              split
              · rename_i db1 e hW
                rw [hW] at hpres
                exact hpres
              · rename_i db1 entries hW
                rw [hW] at hpres
                split
                · exact hpres
                · exact hpres
        · rfl

/-- Witness for the amended C3 on `dbC3`: reaching non-friend 20 aborts
validation with the 400 error, and user 20 gains no collaborator row on any
path of the full operation. -/
theorem addCollaborators_notFriends_amended_witness :
    validateCandidates dbC3 1
      { id := 1, student_id := 10, title := "Project", due_date := 1000,
        status := .pending, created_at := 0, collaborators := [],
        notifications_sent := [] } 10 [20, 30] =
      .error ("User " ++ toString 20 ++ " is not in your friends list") ∧
    collabFor (addCollaboratorsToDeadline dbC3 1 10 [20, 30] false true
      " (My Copy)" 0).1 1 20 = collabFor dbC3 1 20 := by
  have h := addCollaborators_notFriends_amended dbC3 1 10
  have hnofr : ∀ f, getFriendshipStatus dbC3 10 20 = some f →
      f.status ≠ FriendStatus.accepted := by
    intro f hf
    rw [show getFriendshipStatus dbC3 10 20 = (none : Option FriendRow) from rfl] at hf
    cases hf
  exact ⟨h.1 _ 20 [30] ⟨20⟩ (by decide) (by decide) rfl rfl hnofr,
    h.2 20 [20, 30] false true " (My Copy)" 0 hnofr 1⟩

/-! ### Claim C4: idempotence of the collaborator add -/

/-- C4.  For a first run of the collaborator add (without copies) that
succeeds: re-invoking it with the same candidate list yields an
`already a collaborator` skip for every candidate added by the first call
and leaves the store untouched (the whole list is skipped, so the second
call reports `No valid collaborators to add`); key uniqueness of the
collaborator table is preserved, so no duplicate `(deadline, user)` rows
ever exist; and a candidate equal to the requester, or to the deadline's
owning user, is a per-candidate skip that lets the loop continue with the
remaining candidates. -/
theorem addCollaborators_idempotent (db : DB) (did req : Nat) (L : List Nat)
    (cic : Bool) (suffix : String) (now now₂ : ℚ) {db₁ : DB}
    {added denied₀ : List CopyEntry} {skipped₀ : List Skip}
    (hnodup : (collabKeys db.collabRows).Nodup)
    (hrun : addCollaboratorsToDeadline db did req L false cic suffix now =
      (db₁, .success added denied₀ skipped₀)) :
    (∃ sk₂, addCollaboratorsToDeadline db₁ did req L false cic suffix now₂ =
        (db₁, .noValidCandidates sk₂) ∧
      ∀ e ∈ added, (⟨e.user_id, "User is already a collaborator"⟩ : Skip) ∈ sk₂) ∧
    (collabKeys db₁.collabRows).Nodup ∧
    (∀ (db₀ : DB) (dl : DeadlineRow) (c : Nat) (rest : List Nat), c = req →
      validateCandidates db₀ did dl req (c :: rest) =
        (validateCandidates db₀ did dl req rest).map
          (fun r => (r.1, ⟨c, "Cannot add yourself as collaborator"⟩ :: r.2))) ∧
    (∀ (db₀ : DB) (dl : DeadlineRow) (c : Nat) (rest : List Nat), c ≠ req →
      c = dl.student_id →
      validateCandidates db₀ did dl req (c :: rest) =
        (validateCandidates db₀ did dl req rest).map (fun r => (r.1,
          ⟨c, "Cannot add deadline owner as collaborator - they already own this deadline"⟩
            :: r.2))) := by
  unfold addCollaboratorsToDeadline at hrun
  split at hrun
  · simp at hrun
  · rename_i hLne
    split at hrun
    · simp at hrun
    · rename_i dl hdl
      split at hrun
      · rename_i hperm
        split at hrun
        · simp at hrun
        · rename_i valid skipped hval
          split at hrun
          · simp at hrun
          · rename_i hvne
            split at hrun
            · simp at hrun
            · rename_i db1 entries hW
              split at hrun
              · simp at hrun
              · -- the successful first run
                unfold addCollaboratorsWithCopies at hW
                rw [if_neg (by simp)] at hW
                have hdb1 : db1 = (directAddLoop db did valid).1 :=
                  (congrArg Prod.fst hW).symm
                have hentries : entries = (directAddLoop db did valid).2 := by
                  have := congrArg Prod.snd hW
                  simp only at this
                  injection this with this
                  exact this.symm
                have hentries' : entries = valid.map (fun u =>
                    { user_id := u, deadline_id := some did, is_copy := false,
                      denied := false, is_original_owner := false,
                      failed := false }) := by
                  rw [hentries, directAddLoop_entries]
                have hfilter : entries.filter (fun e => !e.denied && !e.failed) =
                    entries := by
                  rw [List.filter_eq_self]
                  intro e he
                  rw [hentries'] at he
                  obtain ⟨u, -, rfl⟩ := List.mem_map.mp he
                  rfl
                rw [hfilter] at hrun
                have hdb₁ : db₁ = (directAddLoop db did valid).1 := by
                  rw [← hdb1]
                  exact (congrArg Prod.fst hrun).symm
                have hadded : added = entries := by
                  have := congrArg Prod.snd hrun
                  simp only at this
                  injection this with h1 h2 h3
                  exact h1.symm
                have hvmem : ∀ c ∈ valid,
                    c ≠ req ∧ c ≠ dl.student_id ∧ collabFor db did c = none :=
                  fun c hc => by
                    obtain ⟨h1, h2, h3, -⟩ := validateCandidates_mem_valid
                      db did dl req L valid skipped c hval hc
                    exact ⟨h1, h2, h3⟩
                have hrowsAfter : ∀ c ∈ valid, ∃ r',
                    collabFor (directAddLoop db did valid).1 did c = some r' := by
                  intro c hc
                  rw [directAddLoop_collabFor, if_pos hc]
                  exact ⟨_, rfl⟩
                have hdl₁ : ∃ dl₁,
                    findDeadline (directAddLoop db did valid).1 did = some dl₁ ∧
                    dl₁.student_id = dl.student_id := by
                  have hm := directAddLoop_studentId did valid db did
                  rw [hdl] at hm
                  cases hx : findDeadline (directAddLoop db did valid).1 did with
                  | none =>
                    rw [hx] at hm
                    cases hm
                  | some dl₁ =>
                    rw [hx] at hm
                    exact ⟨dl₁, rfl, by injection hm⟩
                obtain ⟨dl₁, hdl₁', hsid⟩ := hdl₁
                have hreqnot : req ∉ valid := fun hc => (hvmem req hc).1 rfl
                have hpermcoll :
                    collabFor (directAddLoop db did valid).1 did req =
                      collabFor db did req := by
                  rw [directAddLoop_collabFor, if_neg hreqnot]
                have hperm₁ : hasPermission (directAddLoop db did valid).1 did
                    req dl₁ = true := by
                  unfold hasPermission at hperm ⊢
                  rw [hsid, hpermcoll]
                  exact hperm
                have hmono : ∀ c r, collabFor db did c = some r →
                    ∃ r', collabFor (directAddLoop db did valid).1 did c = some r' := by
                  intro c r hc
                  rw [directAddLoop_collabFor]
                  by_cases hcv : c ∈ valid
                  · rw [if_pos hcv]
                    exact ⟨_, rfl⟩
                  · rw [if_neg hcv, hc]
                    exact ⟨r, rfl⟩
                obtain ⟨sk₂, hok₂, hmem₂⟩ := validateCandidates_after db
                  (directAddLoop db did valid).1 did req dl dl₁ hsid hmono L
                  valid skipped hval hrowsAfter
                refine ⟨⟨sk₂, ?_, ?_⟩, ?_, ?_, ?_⟩
                · rw [hdb₁]
                  unfold addCollaboratorsToDeadline
                  rw [if_neg hLne]
                  simp only [hdl₁', hok₂]
                  rw [if_pos hperm₁]
                  rfl
                · intro e he
                  rw [hadded, hentries'] at he
                  obtain ⟨u, hu, rfl⟩ := List.mem_map.mp he
                  exact hmem₂ u hu
                · rw [hdb₁]
                  exact directAddLoop_keys_nodup did valid db hnodup
                · intro db₀ dl' c rest hc
                  rw [validateCandidates, if_pos hc]
                · intro db₀ dl' c rest hc1 hc2
                  rw [validateCandidates, if_neg hc1, if_pos hc2]
      · simp at hrun

/-- Witness for C4 on `dbC4`: requester 10 (an editing collaborator) adds
`[20, 10, 99]`; the first call succeeds adding 20, and the second call skips
20 as `already a collaborator` while changing nothing. -/
theorem addCollaborators_idempotent_witness :
    ∃ sk₂,
      addCollaboratorsToDeadline
        (addCollaboratorsToDeadline dbC4 1 10 [20, 10, 99] false true
          " (My Copy)" 0).1
        1 10 [20, 10, 99] false true " (My Copy)" 1 =
        ((addCollaboratorsToDeadline dbC4 1 10 [20, 10, 99] false true
          " (My Copy)" 0).1, .noValidCandidates sk₂) ∧
      (⟨20, "User is already a collaborator"⟩ : Skip) ∈ sk₂ := by
  obtain ⟨⟨sk₂, hok, hmem⟩, -, -, -⟩ := addCollaborators_idempotent dbC4 1 10
    [20, 10, 99] true " (My Copy)" 0 1 (by decide) rfl
  refine ⟨sk₂, hok, ?_⟩
  exact hmem { user_id := 20, deadline_id := some 1, is_copy := false, denied := false, is_original_owner := false, failed := false } (by decide)

/-! ### Claim C8: what a successful copy-creating add produces -/

/-- C8.  A successful copy-creating add of candidate `C` on deadline `D`
(`C` is not the resolved root owner, exists as a user, and has no snapshot
entry yet): the new row is owned by `C` with status `pending` and the
copy-title (base title plus suffix, markers stripped first); `C` gets an
`owner` collaborator row on the copy; the original deadline's snapshot gains
the `copy_collaborator`/`has_copy` tracking entry with no edit or delete
rights; and no collaborator row for `C` is created on `D`. -/
theorem addCollaboratorsWithCopies_single_copy (db : DB) (D C : Nat)
    (suffix : String) (now : ℚ) (d : DeadlineRow) (uu : UserRow)
    (hfind : findDeadline db D = some d)
    (hCroot : ¬ C = (resolveRoot db d D).2)
    (hNoSnap : ∀ c ∈ d.collaborators, c.user_id ≠ C)
    (hUser : findUser db C = some uu) :
    ∃ db' cid,
      addCollaboratorsWithCopies db D [C] true true suffix now = (db',
        .ok [{ user_id := C, deadline_id := some cid, is_copy := true,
               denied := false, is_original_owner := false, failed := false }]) ∧
      (∃ crow, findDeadline db' cid = some crow ∧ crow.student_id = C ∧
        crow.status = Status.pending ∧ crow.title = copyTitle d.title suffix) ∧
      collabFor db' cid C = some ⟨cid, C, Role.owner, true, true⟩ ∧
      (∃ dOrig, findDeadline db' D = some dOrig ∧
        dOrig.student_id = d.student_id ∧
        copyTrackingEntry C ∈ dOrig.collaborators) ∧
      collabFor db' D C = collabFor db D C := by
  have hdid : d.id = D := (findDeadline_id hfind).2
  have hDlt : D < freshId db := hdid ▸ mem_id_lt_freshId (findDeadline_id hfind).1
  have hDne : D ≠ freshId db := Nat.ne_of_lt hDlt
  set crow : DeadlineRow :=
    { id := freshId db, student_id := C, title := copyTitle d.title suffix,
      due_date := d.due_date, status := .pending, created_at := now,
      collaborators := [], notifications_sent := [] } with hcrow
  set db1 : DB := { db with deadlines := db.deadlines ++ [crow] } with hdb1
  set db2 : DB := addCollaborator db1 (freshId db) C .owner true true with hdb2
  have hcc : createCopy db D C
      { titleSuffix := some suffix, status := some .pending } now =
      .ok (db1, crow) := by
    unfold createCopy
    rw [hfind]
    rfl
  have hloop : copyLoop D (resolveRoot db d D).1 (resolveRoot db d D).2
      suffix now db [C] = (db2,
        [{ user_id := C, deadline_id := some (freshId db), is_copy := true,
           denied := false, is_original_owner := false, failed := false }]) := by
    simp only [copyLoop, if_neg hCroot, hcc]
  have hcole : createCollaboratorCopies db D [C] true suffix now =
      .ok (db2,
        [{ user_id := C, deadline_id := some (freshId db), is_copy := true,
           denied := false, is_original_owner := false, failed := false }]) := by
    simp only [createCollaboratorCopies, hfind, if_pos]
    rw [← hloop]
  have hfind1 : findDeadline db1 D = some d := by
    rw [hdb1]
    exact findDeadline_append_of_found hfind crow
  have hfind2 : findDeadline db2 D = some d := by
    rw [hdb2, findDeadline_addCollaborator_ne _ _ _ _ _ _ hDne]
    exact hfind1
  have hupd := updateOriginalDeadlineCollaboratorsList_ok [C] hfind2
  have hmain : addCollaboratorsWithCopies db D [C] true true suffix now =
      (updateDeadlineRow db2 D (fun r =>
        { r with collaborators := (addTrackingEntries d.collaborators
            (db2.users.filter (fun u => decide (u.id ∈ [C])))) }),
        .ok [{ user_id := C, deadline_id := some (freshId db), is_copy := true,
               denied := false, is_original_owner := false, failed := false }]) := by
    simp only [addCollaboratorsWithCopies, hcole, hupd, if_pos]
  refine ⟨_, freshId db, hmain, ?_, ?_, ?_, ?_⟩
  · have hfresh : ∀ e ∈ db.deadlines, e.id ≠ crow.id :=
      fun e he => Nat.ne_of_lt (mem_id_lt_freshId he)
    have h1 : findDeadline db1 crow.id = some crow := by
      rw [hdb1]
      exact findDeadline_append_fresh db crow hfresh
    obtain ⟨crow2, hc2, hid2, hsid2, htit2, hdue2, hst2, hns2⟩ :=
      findDeadline_addCollaborator_self db1 (freshId db) C .owner true true h1
    refine ⟨crow2, ?_, hsid2, hst2, htit2⟩
    refine findDeadline_updateDeadlineRow_other ?_ hc2 hDne.symm
    exact fun _ => rfl
  · show collabFor db2 (freshId db) C = _
    rw [hdb2]
    exact collabFor_addCollaborator_self db1 (freshId db) C .owner true true
  · refine ⟨_, findDeadline_updateDeadlineRow_self ?_ hfind2, rfl, ?_⟩
    · exact fun _ => rfl
    · refine addTrackingEntries_adds _ _ hNoSnap ?_
      obtain ⟨huu, huuid⟩ := findUser_id hUser
      exact ⟨uu, List.mem_filter.mpr ⟨huu, by simp [huuid]⟩, huuid⟩
  · show collabFor db2 D C = collabFor db D C
    rw [hdb2, collabFor_addCollaborator_other _ _ _ _ (fun hh => hDne hh.1), hdb1]
    rfl

/-- Witness for C8 on `dbC8`: copying "HW3 (My Copy)" for user 2 produces a
pending copy titled "HW3 (My Copy)" (marker stripped before suffixing — no
double suffix), an owner row for user 2 on the copy, a tracking entry on
deadline 1, and no row for user 2 on deadline 1. -/
theorem addCollaboratorsWithCopies_single_copy_witness :
    (∃ db' cid,
      addCollaboratorsWithCopies dbC8 1 [2] true true " (My Copy)" 0 = (db',
        .ok [{ user_id := 2, deadline_id := some cid, is_copy := true,
               denied := false, is_original_owner := false, failed := false }]) ∧
      (∃ crow, findDeadline db' cid = some crow ∧ crow.student_id = 2 ∧
        crow.status = Status.pending ∧ crow.title = copyTitle dC8.title " (My Copy)") ∧
      collabFor db' cid 2 = some ⟨cid, 2, Role.owner, true, true⟩ ∧
      (∃ dOrig, findDeadline db' 1 = some dOrig ∧
        dOrig.student_id = dC8.student_id ∧
        copyTrackingEntry 2 ∈ dOrig.collaborators) ∧
      collabFor db' 1 2 = collabFor dbC8 1 2) ∧
    copyTitle dC8.title " (My Copy)" = "HW3 (My Copy)" := by
  refine ⟨addCollaboratorsWithCopies_single_copy dbC8 1 2 " (My Copy)" 0 dC8 ⟨2⟩
    rfl (by decide) (by intro c hc; cases hc) rfl, by decide⟩

/-! ### Claim C5: reminder-pass selection and the idempotency marker -/

/-- A positive success tally means some recipient succeeded on some channel. -/
theorem tallyOutcomes_pos :
    ∀ outcomes : List RecipientOutcome,
      0 < (tallyOutcomes outcomes).1 ↔
        outcomes.any (fun r => recipientSucceeded r) = true
  | [] => by simp [tallyOutcomes]
  | r :: rest => by
    rw [List.any_cons]
    unfold tallyOutcomes
    by_cases hdis : !r.emailEnabled && !r.inAppEnabled
    · have hrs : recipientSucceeded r = false := by
        unfold recipientSucceeded
        simp only [Bool.and_eq_true, Bool.not_eq_true'] at hdis
        simp [hdis.1, hdis.2]
      rw [if_pos hdis, hrs]
      simpa using tallyOutcomes_pos rest
    · rw [if_neg hdis]
      cases hrs : recipientSucceeded r with
      | true => simp
      | false =>
        rw [if_neg (by simp [hrs])]
        simpa using tallyOutcomes_pos rest

/-- C5.  For every configured lead time and its notification kind: a deadline
is selected by the reminder pass iff its due date lies within ±30 minutes of
`now + lead`, its status is neither `completed` nor `overdue`, and the
notifications-sent map has no entry for that kind; a deadline whose entry for
the kind is set is never selected (so a second tick inside the same window
re-dispatches nothing for it); and the marker is written iff at least one
recipient succeeded on at least one channel. -/
theorem reminderPass_selection_and_marker (db : DB) (now hours : ℚ) (nt : String)
    (htf : (hours, nt) ∈ notificationTimeframes) :
    (∀ d, d ∈ selectForTimeframe db now hours nt ↔
      d ∈ db.deadlines ∧
      now + hours * (60 * 60 * 1000) - 30 * 60 * 1000 ≤ d.due_date ∧
      d.due_date ≤ now + hours * (60 * 60 * 1000) + 30 * 60 * 1000 ∧
      d.status ≠ Status.completed ∧ d.status ≠ Status.overdue ∧
      hasSentKey d.notifications_sent nt = false) ∧
    (∀ d ∈ db.deadlines, hasSentKey d.notifications_sent nt = true →
      d ∉ selectForTimeframe db now hours nt) ∧
    (∀ d outcomes now',
      sendDeadlineNotificationToAllCollaborators db d nt outcomes now' =
        if outcomes.any (fun r => recipientSucceeded r) then
          markNotificationSent db d.id nt now'
        else db) := by
  clear htf
  have hstart : reminderWindowStart now hours =
      now + hours * (60 * 60 * 1000) - 30 * 60 * 1000 := by
    unfold reminderWindowStart
    ring
  have hend : reminderWindowEnd now hours =
      now + hours * (60 * 60 * 1000) + 30 * 60 * 1000 := by
    unfold reminderWindowEnd
    ring
  refine ⟨?_, ?_, ?_⟩
  · intro d
    rw [selectForTimeframe, List.mem_filter, eligibleForTimeframe, hstart, hend]
    simp [and_assoc]
  · intro d hmem hkey hsel
    rw [selectForTimeframe, List.mem_filter, eligibleForTimeframe] at hsel
    have := hsel.2
    simp [hkey] at this
  · intro d outcomes now'
    unfold sendDeadlineNotificationToAllCollaborators
    by_cases hpos : 0 < (tallyOutcomes outcomes).1
    · rw [if_pos hpos, if_pos ((tallyOutcomes_pos outcomes).mp hpos)]
    · rw [if_neg hpos, if_neg (by
        intro hany
        exact hpos ((tallyOutcomes_pos outcomes).mpr hany))]

/-- Witness for C5 at the 1-hour lead time on `dbC5`: the unmarked in-window
deadline is selected, the marked one is not, and a send with one successful
recipient writes the marker while an all-failed send leaves the store
unchanged. -/
theorem reminderPass_selection_and_marker_witness :
    dC5a ∈ selectForTimeframe dbC5 0 1 "1_hour" ∧
    dC5b ∉ selectForTimeframe dbC5 0 1 "1_hour" ∧
    sendDeadlineNotificationToAllCollaborators dbC5 dC5a "1_hour"
      [⟨7, true, false, true, false⟩] 0 = markNotificationSent dbC5 dC5a.id "1_hour" 0 ∧
    sendDeadlineNotificationToAllCollaborators dbC5 dC5a "1_hour"
      [⟨7, true, false, false, false⟩] 0 = dbC5 := by
  have h := reminderPass_selection_and_marker dbC5 0 1 "1_hour" (by decide)
  refine ⟨(h.1 dC5a).mpr ⟨by decide, by norm_num [dC5a], by norm_num [dC5a], by decide,
    by decide, by decide⟩, h.2.1 dC5b (by decide) (by decide), ?_, ?_⟩
  · rw [h.2.2 dC5a _ 0, if_pos (by decide)]
  · rw [h.2.2 dC5a _ 0, if_neg (by decide)]

/-! ### Claim C6: the overdue re-notify decision -/

/-- C6.  For an existing deadline, `shouldSendOverdueNotification` returns
`true` exactly when no overdue-notification timestamp is recorded, or the
last one is at least 24 hours old and the deadline has been overdue for at
most 168 hours. -/
theorem shouldSendOverdue_characterization (db : DB) (did : Nat) (now : ℚ)
    (d : DeadlineRow) (h : findDeadline db did = some d) :
    shouldSendOverdueNotification db did now = true ↔
      lookupSent d.notifications_sent "overdue" = none ∨
      (∃ t, lookupSent d.notifications_sent "overdue" = some t ∧
        24 * (1000 * 60 * 60) ≤ now - t ∧
        now - d.due_date ≤ 168 * (1000 * 60 * 60)) := by
  have hc : (0 : ℚ) < 1000 * 60 * 60 := by norm_num
  have h24 : ∀ t : ℚ, 24 ≤ hoursBetween now t ↔ 24 * (1000 * 60 * 60) ≤ now - t := by
    intro t
    unfold hoursBetween
    rw [le_div_iff₀ hc]
  have h168 : hoursBetween now d.due_date ≤ 168 ↔
      now - d.due_date ≤ 168 * (1000 * 60 * 60) := by
    unfold hoursBetween
    rw [div_le_iff₀ hc]
  unfold shouldSendOverdueNotification shouldSendOverdueNotificationRead
  rw [h]
  cases hl : lookupSent d.notifications_sent "overdue" with
  | none => simp [hl]
  | some t =>
    simp only [hl, Bool.and_eq_true, decide_eq_true_eq, h24, h168]
    constructor
    · rintro ⟨h1, h2⟩
      exact Or.inr ⟨t, rfl, h1, h2⟩
    · rintro (hnone | ⟨t', ht', h1, h2⟩)
      · cases hnone
      · injection ht' with ht'
        subst ht'
        exact ⟨h1, h2⟩

/-- Witness for C6 on `dbC6`: the characterization instantiated at the four
boundary rows, together with the concrete outcomes — never-notified sends,
23-hours-ago does not, 25-hours-ago with 10 hours overdue sends, and
25-hours-ago with 200 hours overdue does not. -/
theorem shouldSendOverdue_characterization_witness :
    (shouldSendOverdueNotification dbC6 1 nowC6 = true ↔
      lookupSent dC6a.notifications_sent "overdue" = none ∨
      (∃ t, lookupSent dC6a.notifications_sent "overdue" = some t ∧
        24 * (1000 * 60 * 60) ≤ nowC6 - t ∧
        nowC6 - dC6a.due_date ≤ 168 * (1000 * 60 * 60))) ∧
    shouldSendOverdueNotification dbC6 1 nowC6 = true ∧
    shouldSendOverdueNotification dbC6 2 nowC6 = false ∧
    shouldSendOverdueNotification dbC6 3 nowC6 = true ∧
    shouldSendOverdueNotification dbC6 4 nowC6 = false := by
  refine ⟨shouldSendOverdue_characterization dbC6 1 nowC6 dC6a rfl, ?_, ?_, ?_, ?_⟩
  · exact (shouldSendOverdue_characterization dbC6 1 nowC6 dC6a rfl).mpr (Or.inl rfl)
  · cases hb : shouldSendOverdueNotification dbC6 2 nowC6 with
    | false => rfl
    | true =>
      rcases (shouldSendOverdue_characterization dbC6 2 nowC6 dC6b rfl).mp hb with
        hnone | ⟨t, ht, h1, _⟩
      · rw [show lookupSent dC6b.notifications_sent "overdue" =
          some (35917200000 : ℚ) from rfl] at hnone
        cases hnone
      · rw [show lookupSent dC6b.notifications_sent "overdue" =
          some (35917200000 : ℚ) from rfl] at ht
        injection ht with ht
        subst ht
        norm_num [nowC6] at h1
  · exact (shouldSendOverdue_characterization dbC6 3 nowC6 dC6c rfl).mpr
      (Or.inr ⟨35910000000, rfl, by norm_num [nowC6], by norm_num [nowC6, dC6c]⟩)
  · cases hb : shouldSendOverdueNotification dbC6 4 nowC6 with
    | false => rfl
    | true =>
      rcases (shouldSendOverdue_characterization dbC6 4 nowC6 dC6d rfl).mp hb with
        hnone | ⟨t, ht, _, h2⟩
      · rw [show lookupSent dC6d.notifications_sent "overdue" =
          some (35910000000 : ℚ) from rfl] at hnone
        cases hnone
      · norm_num [nowC6, dC6d] at h2

/-! ### Claim C7: the unconditional overdue status transition -/

/-- Reading any id through the fold of per-target status updates. -/
theorem findDeadline_statusFold :
    ∀ (ts : List DeadlineRow) (db : DB) (i : Nat),
      findDeadline (ts.foldl (fun s t => updateDeadlineStatus s t.id .overdue) db) i =
        if ts.any (fun t => t.id = i) then
          (findDeadline db i).map (fun r => { r with status := Status.overdue })
        else findDeadline db i
  | [], db, i => by simp
  | t :: ts, db, i => by
    have hupd : findDeadline (updateDeadlineStatus db t.id .overdue) i =
        (findDeadline db i).map (fun d =>
          if d.id = t.id then { d with status := Status.overdue } else d) :=
      findDeadline_updateDeadlineRow db t.id
        (fun d => { d with status := Status.overdue }) (fun _ => rfl) i
    rw [List.foldl_cons, findDeadline_statusFold ts, List.any_cons, hupd]
    by_cases hts : ts.any (fun x => decide (x.id = i)) = true
    · rw [if_pos hts]
      cases hd : findDeadline db i with
      | none => simp
      | some d =>
        rw [if_pos (by simp [hts]), Option.map_some', Option.map_some',
          Option.map_some']
        by_cases hdi : d.id = t.id
        · rw [if_pos hdi]
        · rw [if_neg hdi]
    · rw [if_neg hts]
      cases hd : findDeadline db i with
      | none =>
        rw [Option.map_none']
        split <;> rfl
      | some d =>
        by_cases hdi : d.id = t.id
        · have hti : t.id = i := by rw [← hdi, (findDeadline_id hd).2]
          rw [if_pos (by simp [hti]), Option.map_some', Option.map_some',
            if_pos hdi]
        · have hti : ¬ t.id = i := fun h => hdi (by rw [(findDeadline_id hd).2, ← h])
          rw [if_neg (by simp [hti, hts]), Option.map_some', if_neg hdi]

/-- C7.  With unique deadline ids: both the scheduler's status-maintenance
scan and `Deadline.updateOverdueDeadlines` set every past-due deadline whose
status is neither `completed` nor `overdue` to `overdue`; they leave a
`completed` deadline untouched; and they leave an `overdue` deadline
untouched (no transition out of `overdue`). -/
theorem overdueScan_statusTransitions (db : DB) (now : ℚ) (i : Nat)
    (d : DeadlineRow) (hnodup : (db.deadlines.map (·.id)).Nodup)
    (hd : findDeadline db i = some d) :
    (d.due_date < now → d.status ≠ Status.completed → d.status ≠ Status.overdue →
      findDeadline (overdueStatusScan db now) i = some { d with status := .overdue } ∧
      findDeadline (updateOverdueDeadlines db now) i = some { d with status := .overdue }) ∧
    (d.status = Status.completed →
      findDeadline (overdueStatusScan db now) i = some d ∧
      findDeadline (updateOverdueDeadlines db now) i = some d) ∧
    (d.status = Status.overdue →
      findDeadline (overdueStatusScan db now) i = some d ∧
      findDeadline (updateOverdueDeadlines db now) i = some d) := by
  obtain ⟨hmem, hid⟩ := findDeadline_id hd
  have hmaint : findDeadline (updateOverdueDeadlines db now) i =
      (findDeadline db i).map (fun x =>
        if x.due_date < now ∧ x.status ≠ Status.completed ∧ x.status ≠ Status.overdue
        then { x with status := Status.overdue } else x) := by
    unfold updateOverdueDeadlines findDeadline
    exact find?_map_pred _ _ (fun x => by
      by_cases hx : x.due_date < now ∧ x.status ≠ Status.completed ∧
          x.status ≠ Status.overdue <;> simp [hx]) _
  have huniq : ∀ t ∈ db.deadlines, t.id = i → t = d := by
    intro t htmem htid
    exact List.inj_on_of_nodup_map hnodup htmem hmem (by rw [htid, hid])
  refine ⟨?_, ?_, ?_⟩
  · intro hdue hc ho
    constructor
    · unfold overdueStatusScan
      rw [findDeadline_statusFold, if_pos, hd, Option.map_some']
      rw [List.any_eq_true]
      exact ⟨d, List.mem_filter.mpr ⟨hmem, by simp [hdue, hc, ho]⟩, by simp [hid]⟩
    · rw [hmaint, hd, Option.map_some', if_pos ⟨hdue, hc, ho⟩]
  · intro hc
    constructor
    · unfold overdueStatusScan
      rw [findDeadline_statusFold, if_neg, hd]
      rw [List.any_eq_true]
      rintro ⟨t, htmem, htid⟩
      have := (List.mem_filter.mp htmem).2
      rw [huniq t (List.mem_filter.mp htmem).1 (of_decide_eq_true htid)] at this
      simp [hc] at this
    · rw [hmaint, hd, Option.map_some', if_neg (by simp [hc])]
  · intro ho
    constructor
    · unfold overdueStatusScan
      rw [findDeadline_statusFold, if_neg, hd]
      rw [List.any_eq_true]
      rintro ⟨t, htmem, htid⟩
      have := (List.mem_filter.mp htmem).2
      rw [huniq t (List.mem_filter.mp htmem).1 (of_decide_eq_true htid)] at this
      simp [ho] at this
    · rw [hmaint, hd, Option.map_some', if_neg (by simp [ho])]

/-- Witness for C7 on `dbC7` at `now = 1000`: the past-due pending row is
transitioned to `overdue`, the completed and overdue rows are unchanged. -/
theorem overdueScan_statusTransitions_witness :
    findDeadline (overdueStatusScan dbC7 1000) 1 = some { dC7a with status := .overdue } ∧
    findDeadline (overdueStatusScan dbC7 1000) 2 = some dC7b ∧
    findDeadline (overdueStatusScan dbC7 1000) 3 = some dC7c ∧
    findDeadline (updateOverdueDeadlines dbC7 1000) 1 =
      some { dC7a with status := .overdue } := by
  have h1 := overdueScan_statusTransitions dbC7 1000 1 dC7a (by decide) (by decide)
  have h2 := overdueScan_statusTransitions dbC7 1000 2 dC7b (by decide) (by decide)
  have h3 := overdueScan_statusTransitions dbC7 1000 3 dC7c (by decide) (by decide)
  have ha := h1.1 (by norm_num [dC7a]) (by decide) (by decide)
  exact ⟨ha.1, (h2.2.1 rfl).1, (h3.2.2 rfl).1, ha.2⟩

/-! ### Claim C10: the re-notify decision fails closed -/

/-- C10.  When reading the deadline's notification state fails — the read
throws, or the row is absent — `shouldSendOverdueNotification` returns
`false` instead of propagating the failure, so an unreadable record can only
suppress an overdue notification, never duplicate one. -/
theorem shouldSendOverdue_failClosed (now : ℚ) :
    (∀ msg, shouldSendOverdueNotificationRead (.error msg) now = false) ∧
    shouldSendOverdueNotificationRead (.ok none) now = false ∧
    (∀ db did, findDeadline db did = none →
      shouldSendOverdueNotification db did now = false) := by
  refine ⟨fun msg => rfl, rfl, fun db did h => ?_⟩
  unfold shouldSendOverdueNotification
  rw [h]
  rfl

/-- Witness for C10: the fail-closed behaviour at a store without the
deadline and at a failed read. -/
theorem shouldSendOverdue_failClosed_witness :
    shouldSendOverdueNotificationRead (.error "db down") 0 = false ∧
    shouldSendOverdueNotificationRead (.ok none) 0 = false ∧
    shouldSendOverdueNotification dbC10 1 0 = false := by
  have h := shouldSendOverdue_failClosed 0
  exact ⟨h.1 "db down", h.2.1, h.2.2 dbC10 1 (by decide)⟩

end DeadlineTracker
